import Mathlib

/-!
Verification of the license-plate sighting tracker (`app.py`, `seed_data_demo.py`)
against its natural-language specification.

The development shallowly embeds the data model (the `Sighting` table, the
image store) and the operations the spec talks about: the sighting service
(`add_sighting`, `edit_sighting`, `delete_sighting`), the date-range filter of
`index`, the three export handlers (`export_csv`, `export_zip`,
`export_python`), the bulk image importer (`bulk_upload`) and the demo seed
loader (`seed_database`).  Python `datetime` values are embedded as records of
calendar fields; `datetime.strptime` / `strftime` for the three formats the
code uses are implemented over character lists.  File-system effects are
embedded as an explicit store (an association list from filename to bytes)
plus a trace of file operations.
-/

/-- Embedding of a Python `datetime`: calendar fields, as `datetime` stores
them.  Python enforces `1 <= year <= 9999`, `1 <= month <= 12`,
`1 <= day <= daysInMonth`, `hour <= 23`, `minute <= 59`, `second <= 59`;
we carry those bounds as hypotheses where proofs need them. -/
structure PyDateTime where
  year : Nat
  month : Nat
  day : Nat
  hour : Nat
  minute : Nat
  second : Nat
  microsecond : Nat
deriving DecidableEq, Repr

/-- Lexicographic strict order on datetimes, as Python compares them. -/
def PyDateTime.ltb (a b : PyDateTime) : Bool :=
  if a.year ≠ b.year then decide (a.year < b.year)
  else if a.month ≠ b.month then decide (a.month < b.month)
  else if a.day ≠ b.day then decide (a.day < b.day)
  else if a.hour ≠ b.hour then decide (a.hour < b.hour)
  else if a.minute ≠ b.minute then decide (a.minute < b.minute)
  else if a.second ≠ b.second then decide (a.second < b.second)
  else decide (a.microsecond < b.microsecond)

/-- Non-strict lexicographic order on datetimes. -/
def PyDateTime.leb (a b : PyDateTime) : Bool :=
  a.ltb b || decide (a = b)

/-- Gregorian leap-year rule, as Python's `calendar` uses it. -/
def isLeap (y : Nat) : Bool :=
  y % 4 == 0 && (y % 100 != 0 || y % 400 == 0)

/-- Number of days of month `m` of year `y` (Python's validity rule for
`datetime(year, month, day, ...)`). -/
def daysInMonth (y m : Nat) : Nat :=
  if m = 2 then (if isLeap y then 29 else 28)
  else if m = 4 ∨ m = 6 ∨ m = 9 ∨ m = 11 then 30
  else 31

/-- `t + timedelta(days=1)` on the calendar-field representation. -/
def addOneDay (t : PyDateTime) : PyDateTime :=
  if t.day < daysInMonth t.year t.month then { t with day := t.day + 1 }
  else if t.month < 12 then { t with day := 1, month := t.month + 1 }
  else { t with day := 1, month := 1, year := t.year + 1 }

/-- The bounds Python's `datetime` constructor enforces on every value it
ever returns. -/
def ValidDT (t : PyDateTime) : Prop :=
  1 ≤ t.year ∧ t.year ≤ 9999 ∧ 1 ≤ t.month ∧ t.month ≤ 12 ∧
  1 ≤ t.day ∧ t.day ≤ daysInMonth t.year t.month ∧
  t.hour ≤ 23 ∧ t.minute ≤ 59 ∧ t.second ≤ 59

instance (t : PyDateTime) : Decidable (ValidDT t) := by
  unfold ValidDT
  infer_instance

/-- The decimal digit character of `d` (`d < 10`). -/
def digitToChar : Nat → Char
  | 0 => '0' | 1 => '1' | 2 => '2' | 3 => '3' | 4 => '4'
  | 5 => '5' | 6 => '6' | 7 => '7' | 8 => '8' | _ => '9'

/-- Little-endian decimal digit characters of `n`, with `fuel` bounding the
recursion (callers pass `fuel = n`). -/
def natCharsAux : Nat → Nat → List Char
  | 0, _ => []
  | fuel + 1, n => if n = 0 then [] else digitToChar (n % 10) :: natCharsAux fuel (n / 10)

/-- Decimal digit characters of `n`, most significant first (Python `str(n)`
for a natural number). -/
def natChars (n : Nat) : List Char :=
  if n = 0 then ['0'] else (natCharsAux n n).reverse

/-- Zero-pad the decimal rendering of `n` to width `w` (Python `"%0...d"`,
as `strftime` pads `%Y`/`%m`/`%d`/`%H`/`%M`/`%S`). -/
def padChars (w n : Nat) : List Char :=
  List.replicate (w - (natChars n).length) '0' ++ natChars n

/-- Zero-padded decimal rendering as a string. -/
def pad (w n : Nat) : String :=
  String.mk (padChars w n)

/-- `t.strftime('%Y-%m-%d %H:%M:%S')` — the timestamp format used by all
three export handlers. -/
def strftimeYmdHMS (t : PyDateTime) : String :=
  pad 4 t.year ++ "-" ++ pad 2 t.month ++ "-" ++ pad 2 t.day ++ " " ++
    pad 2 t.hour ++ ":" ++ pad 2 t.minute ++ ":" ++ pad 2 t.second

/-- Take up to `w` leading decimal-digit characters (the greedy behaviour of
the `\d{1,w}` patterns Python's `strptime` compiles its numeric
directives to). -/
def takeDigits : Nat → List Char → List Char × List Char
  | 0, cs => ([], cs)
  | _ + 1, [] => ([], [])
  | w + 1, c :: cs =>
    if c.isDigit then
      let p := takeDigits w cs
      (c :: p.1, p.2)
    else ([], c :: cs)

/-- Numeric value of a big-endian list of digit characters. -/
def charsVal (cs : List Char) : Nat :=
  cs.foldl (fun a c => a * 10 + (c.toNat - 48)) 0

/-- Parse a numeric `strptime` field of at most `w` digits; fails when no
digit is present. -/
def parseNum (w : Nat) (cs : List Char) : Option (Nat × List Char) :=
  let p := takeDigits w cs
  if p.1.isEmpty then none else some (charsVal p.1, p.2)

/-- Consume one expected literal character of a `strptime` format. -/
def expectChar (c : Char) : List Char → Option (List Char)
  | [] => none
  | d :: cs => if d = c then some cs else none

/-- The date bounds `datetime.strptime` enforces (directive patterns plus the
`datetime` constructor's day-of-month check). -/
def validDate (y m d : Nat) : Bool :=
  decide (1 ≤ y) && decide (y ≤ 9999) && decide (1 ≤ m) && decide (m ≤ 12) &&
    decide (1 ≤ d) && decide (d ≤ daysInMonth y m)

/-- `datetime.strptime(s, '%Y-%m-%d %H:%M:%S')` (the demo seed loader's
format), returning `none` where Python raises `ValueError`. -/
def strptimeYmdHMS (s : String) : Option PyDateTime := do
  let (y, r1) ← parseNum 4 s.data
  let r2 ← expectChar '-' r1
  let (mo, r3) ← parseNum 2 r2
  let r4 ← expectChar '-' r3
  let (d, r5) ← parseNum 2 r4
  let r6 ← expectChar ' ' r5
  let (h, r7) ← parseNum 2 r6
  let r8 ← expectChar ':' r7
  let (mi, r9) ← parseNum 2 r8
  let r10 ← expectChar ':' r9
  let (se, r11) ← parseNum 2 r10
  if r11.isEmpty && validDate y mo d && decide (h ≤ 23) && decide (mi ≤ 59) &&
      decide (se ≤ 59) then
    some ⟨y, mo, d, h, mi, se, 0⟩
  else none

/-- `datetime.strptime(s, '%Y-%m-%dT%H:%M')` (the create/edit forms' format),
returning `none` where Python raises `ValueError`. -/
def strptimeYmdTHM (s : String) : Option PyDateTime := do
  let (y, r1) ← parseNum 4 s.data
  let r2 ← expectChar '-' r1
  let (mo, r3) ← parseNum 2 r2
  let r4 ← expectChar '-' r3
  let (d, r5) ← parseNum 2 r4
  let r6 ← expectChar 'T' r5
  let (h, r7) ← parseNum 2 r6
  let r8 ← expectChar ':' r7
  let (mi, r9) ← parseNum 2 r8
  if r9.isEmpty && validDate y mo d && decide (h ≤ 23) && decide (mi ≤ 59) then
    some ⟨y, mo, d, h, mi, 0, 0⟩
  else none

/-- `datetime.strptime(s, '%Y-%m-%d')` (the index date-range filter's
format), returning `none` where Python raises `ValueError`. -/
def strptimeYmd (s : String) : Option PyDateTime := do
  let (y, r1) ← parseNum 4 s.data
  let r2 ← expectChar '-' r1
  let (mo, r3) ← parseNum 2 r2
  let r4 ← expectChar '-' r3
  let (d, r5) ← parseNum 2 r4
  if r5.isEmpty && validDate y mo d then
    some ⟨y, mo, d, 0, 0, 0, 0⟩
  else none

-- ### Round-trip lemmas for the digit machinery

theorem natCharsAux_eq_digits (fuel : Nat) :
    ∀ n, n ≤ fuel → natCharsAux fuel n = (Nat.digits 10 n).map digitToChar := by
  induction fuel with
  | zero =>
    intro n hn
    interval_cases n
    simp [natCharsAux]
  | succ fuel ih =>
    intro n hn
    by_cases h0 : n = 0
    · simp [natCharsAux, h0]
    · have hd : Nat.digits 10 n = n % 10 :: Nat.digits 10 (n / 10) :=
        Nat.digits_def' (by norm_num) (Nat.pos_of_ne_zero h0)
      have hlt : n / 10 < n := Nat.div_lt_self (Nat.pos_of_ne_zero h0) (by norm_num)
      have : n / 10 ≤ fuel := by omega
      simp [natCharsAux, h0, hd, ih _ this]

theorem natChars_eq_digits (n : Nat) (h : n ≠ 0) :
    natChars n = ((Nat.digits 10 n).map digitToChar).reverse := by
  simp [natChars, h, natCharsAux_eq_digits n n (le_refl n)]

theorem digitToChar_isDigit (d : Nat) : (digitToChar d).isDigit = true := by
  unfold digitToChar
  split <;> decide

theorem digitToChar_val (d : Nat) (h : d < 10) : (digitToChar d).toNat - 48 = d := by
  interval_cases d <;> decide

theorem natChars_all_digits (n : Nat) : ∀ c ∈ natChars n, c.isDigit = true := by
  by_cases h : n = 0
  · subst h
    intro c hc
    simp [natChars] at hc
    subst hc
    decide
  · rw [natChars_eq_digits n h]
    intro c hc
    rw [List.mem_reverse, List.mem_map] at hc
    obtain ⟨d, _, rfl⟩ := hc
    exact digitToChar_isDigit d

theorem charsVal_replicate_zero (k : Nat) (cs : List Char) :
    charsVal (List.replicate k '0' ++ cs) = charsVal cs := by
  induction k with
  | zero => simp
  | succ k ih =>
    simpa [List.replicate_succ, charsVal] using ih

theorem foldr_digits_eq_ofDigits (l : List Nat) (hl : ∀ d ∈ l, d < 10) :
    List.foldr (fun d a => a * 10 + ((digitToChar d).toNat - 48)) 0 l = Nat.ofDigits 10 l := by
  induction l with
  | nil => simp [Nat.ofDigits]
  | cons d l ih =>
    have hd : d < 10 := hl d (List.mem_cons_self d l)
    have hrest : ∀ x ∈ l, x < 10 := fun x hx => hl x (List.mem_cons_of_mem d hx)
    simp only [List.foldr_cons, ih hrest, Nat.ofDigits_cons, digitToChar_val d hd]
    ring

theorem charsVal_natChars (n : Nat) : charsVal (natChars n) = n := by
  by_cases h : n = 0
  · subst h
    decide
  · rw [natChars_eq_digits n h]
    unfold charsVal
    rw [List.foldl_reverse]
    have : List.foldr (fun x y => y * 10 + (x.toNat - 48)) 0 ((Nat.digits 10 n).map digitToChar)
        = List.foldr (fun d a => a * 10 + ((digitToChar d).toNat - 48)) 0 (Nat.digits 10 n) := by
      rw [List.foldr_map]
    rw [this, foldr_digits_eq_ofDigits _ (fun d hd => Nat.digits_lt_base (by norm_num) hd)]
    exact_mod_cast Nat.ofDigits_digits 10 n

theorem natChars_length_le (w n : Nat) (hw : 1 ≤ w) (hn : n < 10 ^ w) :
    (natChars n).length ≤ w := by
  by_cases h : n = 0
  · subst h
    simpa [natChars] using hw
  · rw [natChars_eq_digits n h]
    rw [List.length_reverse, List.length_map]
    rw [Nat.digits_len 10 n (by norm_num) h]
    have := Nat.log_lt_of_lt_pow h hn
    omega

theorem charsVal_padChars (w n : Nat) : charsVal (padChars w n) = n := by
  unfold padChars
  rw [charsVal_replicate_zero, charsVal_natChars]

theorem padChars_length (w n : Nat) (hw : 1 ≤ w) (hn : n < 10 ^ w) :
    (padChars w n).length = w := by
  unfold padChars
  rw [List.length_append, List.length_replicate]
  have := natChars_length_le w n hw hn
  omega

theorem padChars_all_digits (w n : Nat) : ∀ c ∈ padChars w n, c.isDigit = true := by
  intro c hc
  unfold padChars at hc
  rw [List.mem_append] at hc
  cases hc with
  | inl h =>
    rw [List.eq_of_mem_replicate h]
    decide
  | inr h => exact natChars_all_digits n c h

theorem takeDigits_exact (ds : List Char) :
    ∀ rest, (∀ c ∈ ds, c.isDigit = true) → takeDigits ds.length (ds ++ rest) = (ds, rest) := by
  induction ds with
  | nil => intro rest _; rfl
  | cons c cs ih =>
    intro rest hd
    have hc : c.isDigit = true := hd c (List.mem_cons_self c cs)
    have hrest : ∀ x ∈ cs, x.isDigit = true := fun x hx => hd x (List.mem_cons_of_mem c hx)
    simp [takeDigits, hc, ih rest hrest]

theorem parseNum_pad (w n : Nat) (rest : List Char) (hw : 1 ≤ w) (hn : n < 10 ^ w) :
    parseNum w (padChars w n ++ rest) = some (n, rest) := by
  have hlen := padChars_length w n hw hn
  have hdig := padChars_all_digits w n
  have htake : takeDigits w (padChars w n ++ rest) = (padChars w n, rest) := by
    have h := takeDigits_exact (padChars w n) rest hdig
    rwa [hlen] at h
  have hne : (padChars w n).isEmpty = false := by
    cases hpc : padChars w n with
    | nil => rw [hpc] at hlen; simp at hlen; omega
    | cons a l => simp [List.isEmpty]
  simp [parseNum, htake, hne, charsVal_padChars]

theorem string_data_append (a b : String) : (a ++ b).data = a.data ++ b.data :=
  rfl

theorem string_data_mk (l : List Char) : (String.mk l).data = l :=
  rfl

theorem daysInMonth_le (y m : Nat) : daysInMonth y m ≤ 31 := by
  unfold daysInMonth
  split_ifs <;> omega

theorem expectChar_self (c : Char) (cs : List Char) : expectChar c (c :: cs) = some cs := by
  simp [expectChar]

/-- Key round-trip fact behind the code-literal export / seed-loader cycle:
parsing back a `strftime('%Y-%m-%d %H:%M:%S')` rendering of any valid
`datetime` recovers the same instant truncated to whole seconds. -/
theorem strptimeYmdHMS_strftime (t : PyDateTime) (h : ValidDT t) :
    strptimeYmdHMS (strftimeYmdHMS t) = some { t with microsecond := 0 } := by
  obtain ⟨h1, h2, h3, h4, h5, h6, h7, h8, h9⟩ := h
  have hdm : t.day < 100 := by
    have := daysInMonth_le t.year t.month
    omega
  have hdata : (strftimeYmdHMS t).data =
      padChars 4 t.year ++ ('-' :: (padChars 2 t.month ++ ('-' :: (padChars 2 t.day ++
        (' ' :: (padChars 2 t.hour ++ (':' :: (padChars 2 t.minute ++
          (':' :: (padChars 2 t.second ++ ([] : List Char))))))))))) := by
    simp only [strftimeYmdHMS, pad, string_data_append, string_data_mk]
    simp
  have pmo : ∀ rest, parseNum 2 (padChars 2 t.month ++ rest) = some (t.month, rest) :=
    fun rest => parseNum_pad 2 t.month rest (by norm_num) (by omega)
  have pda : ∀ rest, parseNum 2 (padChars 2 t.day ++ rest) = some (t.day, rest) :=
    fun rest => parseNum_pad 2 t.day rest (by norm_num) (by omega)
  have pho : ∀ rest, parseNum 2 (padChars 2 t.hour ++ rest) = some (t.hour, rest) :=
    fun rest => parseNum_pad 2 t.hour rest (by norm_num) (by omega)
  have pmi : ∀ rest, parseNum 2 (padChars 2 t.minute ++ rest) = some (t.minute, rest) :=
    fun rest => parseNum_pad 2 t.minute rest (by norm_num) (by omega)
  have pse : ∀ rest, parseNum 2 (padChars 2 t.second ++ rest) = some (t.second, rest) :=
    fun rest => parseNum_pad 2 t.second rest (by norm_num) (by omega)
  have hval : validDate t.year t.month t.day = true := by
    simp only [validDate, Bool.and_eq_true, decide_eq_true_eq]
    omega
  unfold strptimeYmdHMS
  rw [hdata, parseNum_pad 4 t.year _ (by norm_num) (by omega)]
  simp only [Option.bind_eq_bind, Option.some_bind, expectChar_self, pmo, pda, pho, pmi, pse]
  have hcond : (([] : List Char).isEmpty && validDate t.year t.month t.day &&
      decide (t.hour ≤ 23) && decide (t.minute ≤ 59) && decide (t.second ≤ 59)) = true := by
    simp [hval, h7, h8, h9]
  rw [if_pos hcond]

-- ### String helpers embedding the Python string operations the app uses

/-- Python `str.upper()` (modelled on its ASCII behaviour, which covers the
state/plate inputs the app handles). -/
def pyUpper (s : String) : String :=
  String.mk (s.data.map Char.toUpper)

/-- Python `str.lower()` (ASCII behaviour). -/
def pyLower (s : String) : String :=
  String.mk (s.data.map Char.toLower)

/-- Python `s.endswith(t)`. -/
def pyEndsWith (s t : String) : Bool :=
  t.data.isSuffixOf s.data

/-- Python truthiness of an optional string (`None` and `''` are falsy). -/
def pyTruthy : Option String → Bool
  | none => false
  | some s => s ≠ ""

/-- The extension whitelist `ALLOWED_EXTENSIONS` of `app.py`. -/
def ALLOWED_EXTENSIONS : List String :=
  ["png", "jpg", "jpeg", "gif", "webp"]

/-- `filename.rsplit('.', 1)[1]`: the characters after the last dot. -/
def afterLastDot (cs : List Char) : List Char :=
  ((cs.reverse.takeWhile (fun c => c != '.')).reverse)

/-- `allowed_file` of `app.py`:
`'.' in filename and filename.rsplit('.', 1)[1].lower() in ALLOWED_EXTENSIONS`. -/
def allowed_file (filename : String) : Bool :=
  filename.data.contains '.' &&
    ALLOWED_EXTENSIONS.contains (pyLower (String.mk (afterLastDot filename.data)))

/-- Python `str.split()` (split on whitespace runs, dropping empties);
first argument is the remaining input, second the accumulator of the word
being read (reversed). -/
def splitWsAux : List Char → List Char → List (List Char)
  | [], acc => if acc.isEmpty then [] else [acc.reverse]
  | c :: cs, acc =>
    if c.isWhitespace then
      if acc.isEmpty then splitWsAux cs [] else acc.reverse :: splitWsAux cs []
    else splitWsAux cs (c :: acc)

/-- `"_".join(parts)` on character lists. -/
def joinUnderscore : List (List Char) → List Char
  | [] => []
  | [x] => x
  | x :: xs => x ++ '_' :: joinUnderscore xs

/-- Werkzeug's `secure_filename` (its ASCII core, as the app's uploads
exercise it): whitespace runs become `_`, characters outside
`[A-Za-z0-9_.-]` are dropped, and leading/trailing `.`/`_` are stripped. -/
def secure_filename (s : String) : String :=
  let joined := joinUnderscore (splitWsAux s.data [])
  let kept := joined.filter (fun c => c.isAlphanum || c == '_' || c == '.' || c == '-')
  String.mk (((kept.dropWhile (fun c => c == '.' || c == '_')).reverse.dropWhile
    (fun c => c == '.' || c == '_')).reverse)

-- ### Data model: the Sighting table, the image store, file-effect traces

/-- The `Sighting` model of `app.py` (its database row). -/
structure Sighting where
  id : Nat
  state : String
  license_plate : String
  car_make : String
  car_model : String
  color : String
  location : Option String
  timestamp : Option PyDateTime
  notes : Option String
  image_filename : Option String
deriving DecidableEq, Repr

/-- File contents, abstracted to a byte list. -/
abbrev Bytes := List Nat

/-- The image store (`instance/uploads`): an association of filename to
stored bytes. -/
abbrev Store := List (String × Bytes)

/-- `os.path.exists` / read of the image store. -/
def Store.lookup (st : Store) (n : String) : Option Bytes :=
  List.lookup n st

/-- `os.path.exists(os.path.join(UPLOAD_FOLDER, n))`. -/
def Store.existsFile (st : Store) (n : String) : Bool :=
  (Store.lookup st n).isSome

/-- `file.save(path)`: write, overwriting any existing file of that name. -/
def Store.save (st : Store) (n : String) (b : Bytes) : Store :=
  (n, b) :: st.filter (fun p => p.1 != n)

/-- `os.remove(path)`. -/
def Store.remove (st : Store) (n : String) : Store :=
  st.filter (fun p => p.1 != n)

/-- One observable file-system side effect on the image store. -/
inductive FileOp where
  | write (name : String)
  | delete (name : String)
deriving DecidableEq, Repr

def FileOp.isWrite : FileOp → Bool
  | .write _ => true
  | .delete _ => false

def FileOp.isDelete : FileOp → Bool
  | .delete _ => true
  | .write _ => false

/-- An uploaded file: Werkzeug `FileStorage` (filename plus bytes). -/
structure UploadFile where
  filename : String
  content : Bytes
deriving DecidableEq, Repr

/-- `delete_image` of `app.py`: best-effort delete of the named file when it
exists; returns the new store and the trace of file operations performed. -/
def delete_image (st : Store) (filename : Option String) : Store × List FileOp :=
  match filename with
  | none => (st, [])
  | some f =>
    if f != "" && Store.existsFile st f then (Store.remove st f, [.delete f])
    else (st, [])

/-- `save_image` of `app.py`: if the extension is allowed, write the bytes
under `sighting_<id>_<secure_filename(original)>` and return that filename. -/
def save_image (st : Store) (file : UploadFile) (sighting_id : Nat) :
    Store × Option String × List FileOp :=
  if allowed_file file.filename then
    let filename := "sighting_" ++ toString sighting_id ++ "_" ++ secure_filename file.filename
    (Store.save st filename file.content, some filename, [.write filename])
  else (st, none, [])

-- ### The sighting service: create, update, delete

/-- The POST form of the `/add` route (`request.form` plus the optional
`request.files['image']`). -/
structure AddForm where
  state : String
  license_plate : String
  car_make : String
  car_model : String
  color : String
  location : Option String
  sighting_time : Option String
  notes : Option String
  image : Option UploadFile
deriving DecidableEq, Repr

/-- The POST form of the `/edit/<id>` route: the add form plus the
`remove_image` field. -/
structure EditForm where
  state : String
  license_plate : String
  car_make : String
  car_model : String
  color : String
  location : Option String
  sighting_time : Option String
  notes : Option String
  remove_image : Option String
  image : Option UploadFile
deriving DecidableEq, Repr

/-- Outcome of one service call: the affected record (`none` when the
transaction rolled back), the image store afterwards, the trace of file
operations, and the number of record writes/deletes committed. -/
structure OpResult where
  record : Option Sighting
  store : Store
  fileOps : List FileOp
  dbOps : Nat
deriving Repr

/-- `add_sighting` (POST branch) of `app.py`.  `now` is `datetime.utcnow()`,
`newId` the id the database assigns at `flush()`.  A `ValueError` from
`strptime` is caught by the route's `except`, which rolls the transaction
back: no record is created and no file is touched. -/
def add_sighting (form : AddForm) (now : PyDateTime) (newId : Nat) (st : Store) : OpResult :=
  let tsRes : Option PyDateTime :=
    if pyTruthy form.sighting_time then strptimeYmdTHM (form.sighting_time.getD "")
    else some now
  match tsRes with
  | none => { record := none, store := st, fileOps := [], dbOps := 0 }
  | some ts =>
    let s : Sighting :=
      { id := newId,
        state := pyUpper form.state,
        license_plate := pyUpper form.license_plate,
        car_make := form.car_make,
        car_model := form.car_model,
        color := form.color,
        location := form.location,
        timestamp := some ts,
        notes := form.notes,
        image_filename := none }
    match form.image with
    | some file =>
      if file.filename = "" then { record := some s, store := st, fileOps := [], dbOps := 1 }
      else if allowed_file file.filename then
        let r := save_image st file newId
        let s1 := match r.2.1 with
          | some fn => { s with image_filename := some fn }
          | none => s
        { record := some s1, store := r.1, fileOps := r.2.2, dbOps := 1 }
      else { record := some s, store := st, fileOps := [], dbOps := 1 }
    | none => { record := some s, store := st, fileOps := [], dbOps := 1 }

/-- `edit_sighting` (POST branch, record found) of `app.py`.  Field updates,
the `remove_image` flag, then an optional replacement upload; a `ValueError`
from `strptime` rolls everything back. -/
def edit_sighting (s : Sighting) (form : EditForm) (st : Store) : OpResult :=
  let tsRes : Option (Option PyDateTime) :=
    if pyTruthy form.sighting_time then (strptimeYmdTHM (form.sighting_time.getD "")).map some
    else some s.timestamp
  match tsRes with
  | none => { record := none, store := st, fileOps := [], dbOps := 0 }
  | some ts =>
    let s1 : Sighting :=
      { s with
        state := pyUpper form.state,
        license_plate := pyUpper form.license_plate,
        car_make := form.car_make,
        car_model := form.car_model,
        color := form.color,
        location := form.location,
        timestamp := ts,
        notes := form.notes }
    let r2 : Sighting × Store × List FileOp :=
      if form.remove_image == some "true" then
        if pyTruthy s1.image_filename then
          let d := delete_image st s1.image_filename
          ({ s1 with image_filename := none }, d.1, d.2)
        else (s1, st, [])
      else (s1, st, [])
    let r3 : Sighting × Store × List FileOp :=
      match form.image with
      | some file =>
        if file.filename = "" then (r2.1, r2.2.1, [])
        else if allowed_file file.filename then
          let d := if pyTruthy r2.1.image_filename then delete_image r2.2.1 r2.1.image_filename
            else (r2.2.1, [])
          let w := save_image d.1 file s.id
          let s3 := match w.2.1 with
            | some fn => { r2.1 with image_filename := some fn }
            | none => r2.1
          (s3, w.1, d.2 ++ w.2.2)
        else (r2.1, r2.2.1, [])
      | none => (r2.1, r2.2.1, [])
    { record := some r3.1, store := r3.2.1, fileOps := r2.2.2 ++ r3.2.2, dbOps := 1 }

/-- `db.session.get(Sighting, id)`: fetch by primary key. -/
def getSighting (db : List Sighting) (i : Nat) : Option Sighting :=
  db.find? (fun s => s.id == i)

/-- Outcome of `delete_sighting`: table and store afterwards, the trace of
file operations, the number of record deletes, and whether the id was found. -/
structure DeleteResult where
  db : List Sighting
  store : Store
  fileOps : List FileOp
  dbOps : Nat
  found : Bool
deriving Repr

/-- `delete_sighting` of `app.py`: delete the record's image file
(best-effort) and then the record itself; unknown ids just flash an error. -/
def delete_sighting (db : List Sighting) (st : Store) (i : Nat) : DeleteResult :=
  match getSighting db i with
  | none => { db := db, store := st, fileOps := [], dbOps := 0, found := false }
  | some s =>
    let d := if pyTruthy s.image_filename then delete_image st s.image_filename else (st, [])
    { db := db.eraseP (fun r => r.id == i), store := d.1, fileOps := d.2, dbOps := 1,
      found := true }

-- ### Query/filter engine: the index date-range filter

/-- The date-range filtering stage of `index` (`app.py` lines 108–120):
a parsable `start_date` keeps records with `timestamp >= start`, a parsable
`end_date` keeps records with `timestamp < end + timedelta(days=1)`;
malformed dates only flash a warning and filter nothing.  SQL comparisons
against a NULL timestamp are not satisfied, so such records drop out of any
applied date filter. -/
def dateRangeFilter (startStr endStr : String) (db : List Sighting) : List Sighting :=
  let db1 :=
    if startStr = "" then db
    else match strptimeYmd startStr with
      | some sd => db.filter (fun s => match s.timestamp with
          | some t => sd.leb t
          | none => false)
      | none => db
  if endStr = "" then db1
  else match strptimeYmd endStr with
    | some ed => db1.filter (fun s => match s.timestamp with
        | some t => t.ltb (addOneDay ed)
        | none => false)
    | none => db1

-- ### Export engine

/-- The `order_by(Sighting.timestamp.desc())` ordering every export uses:
larger timestamps first, NULL timestamps last (SQLite sorts NULL smallest). -/
def tsDescLe (a b : Sighting) : Bool :=
  match a.timestamp, b.timestamp with
  | some ta, some tb => PyDateTime.leb tb ta
  | some _, none => true
  | none, none => true
  | none, some _ => false

/-- `Sighting.query.order_by(Sighting.timestamp.desc()).all()`. -/
def sortedDesc (db : List Sighting) : List Sighting :=
  db.insertionSort (fun a b => tsDescLe a b = true)

/-- `include_notes = request.args.get('include_notes', 'true').lower() == 'true'`,
computed identically by all three export handlers. -/
def includeNotesFlag (p : Option String) : Bool :=
  pyLower (p.getD "true") == "true"

/-- The CSV fieldnames list of `export_csv` / `export_zip`. -/
def csvFieldnames (include_notes : Bool) : List String :=
  if include_notes then
    ["state", "license_plate", "car_make", "car_model", "color", "location",
      "timestamp", "notes", "image_filename"]
  else
    ["state", "license_plate", "car_make", "car_model", "color", "location",
      "timestamp", "image_filename"]

/-- One written CSV row (`notes` carried as an optional column, present
exactly when the row dict got a `notes` key). -/
structure CsvRow where
  state : String
  license_plate : String
  car_make : String
  car_model : String
  color : String
  location : String
  timestamp : String
  notes : Option String
  image_filename : String
deriving DecidableEq, Repr

/-- The row dict `export_csv` / `export_zip` build for one sighting
(`x or ''` turns NULL columns into empty strings; the timestamp is rendered
with `strftime('%Y-%m-%d %H:%M:%S')`, or `''` when NULL). -/
def sightingCsvRow (include_notes : Bool) (s : Sighting) : CsvRow :=
  { state := s.state,
    license_plate := s.license_plate,
    car_make := s.car_make,
    car_model := s.car_model,
    color := s.color,
    location := s.location.getD "",
    timestamp := match s.timestamp with
      | some t => strftimeYmdHMS t
      | none => "",
    notes := if include_notes then some (s.notes.getD "") else none,
    image_filename := s.image_filename.getD "" }

/-- Result of `export_csv`: the header fieldnames and the written rows. -/
structure CsvExport where
  fieldnames : List String
  rows : List CsvRow
deriving Repr

/-- `export_csv` of `app.py`. -/
def export_csv (p : Option String) (db : List Sighting) : CsvExport :=
  let include_notes := pyLower (p.getD "true") == "true"
  let sightings := sortedDesc db
  { fieldnames := csvFieldnames include_notes,
    rows := sightings.map (sightingCsvRow include_notes) }

/-- Result of `export_zip`: the CSV inside the archive plus the set of
`images/` entry names (the staging directory's contents; copying the same
filename twice overwrites, and `os.listdir` yields each name once). -/
structure ZipExport where
  fieldnames : List String
  csvRows : List CsvRow
  imageEntries : List String
deriving Repr

/-- `export_zip` of `app.py`: the same CSV as `export_csv`, plus one
`images/<name>` entry for each distinct truthy `image_filename` whose
backing file exists in the store. -/
def export_zip (p : Option String) (db : List Sighting) (st : Store) : ZipExport :=
  let include_notes := pyLower (p.getD "true") == "true"
  let sightings := sortedDesc db
  let copied := ((sightings.filter (fun s => pyTruthy s.image_filename)).filterMap
    (fun s => s.image_filename)).filter (fun f => Store.existsFile st f)
  { fieldnames := csvFieldnames include_notes,
    csvRows := sightings.map (sightingCsvRow include_notes),
    imageEntries := copied.dedup }

/-- One mapping literal of the code-literal (`/export/python`) format, at the
level of its key/value content (keys: state, plate, make, model, color,
location, timestamp, image_filename, and notes when included). -/
structure SeedDict where
  state : String
  plate : String
  make : String
  model : String
  color : String
  location : String
  timestamp : String
  image_filename : String
  notes : Option String
deriving DecidableEq, Repr

/-- The `data_dict` that `export_python` builds for one sighting. -/
def sightingSeedDict (include_notes : Bool) (s : Sighting) : SeedDict :=
  { state := s.state,
    plate := s.license_plate,
    make := s.car_make,
    model := s.car_model,
    color := s.color,
    location := s.location.getD "",
    timestamp := match s.timestamp with
      | some t => strftimeYmdHMS t
      | none => "",
    image_filename := s.image_filename.getD "",
    notes := if include_notes then some (s.notes.getD "") else none }

/-- `export_python` of `app.py`: the emitted `plates_data` list. -/
def export_python (p : Option String) (db : List Sighting) : List SeedDict :=
  let include_notes := pyLower (p.getD "true") == "true"
  (sortedDesc db).map (sightingSeedDict include_notes)

-- ### The emitted code-literal text (`export_python` lines 485-511)

/-- `sep.join(parts)`, as `', '.join(...)` and `'\n'.join(lines)` use it. -/
def joinSep (sep : String) : List String → String
  | [] => ""
  | [x] => x
  | x :: y :: xs => x ++ sep ++ joinSep sep (y :: xs)

/-- The key/value items of one record's `data_dict`, in Python dict
insertion order (`notes` added last, only when included). -/
def seedDictPairs (d : SeedDict) : List (String × String) :=
  [("state", d.state), ("plate", d.plate), ("make", d.make), ("model", d.model),
    ("color", d.color), ("location", d.location), ("timestamp", d.timestamp),
    ("image_filename", d.image_filename)] ++
    (match d.notes with
      | some n => [("notes", n)]
      | none => [])

/-- `f'"{k}": "{v}"'` of `export_python`: the value is interpolated into the
emitted source text with NO escaping. -/
def renderKV (p : String × String) : String :=
  "\"" ++ p.1 ++ "\": \"" ++ p.2 ++ "\""

/-- One emitted `plates_data` entry line: four spaces, the brace-wrapped
comma-joined items, and a trailing comma. -/
def renderEntry (d : SeedDict) : String :=
  "    \x7b" ++ joinSep ", " ((seedDictPairs d).map renderKV) ++ "\x7d,"

/-- The full text `export_python` emits (`'\n'.join(lines)`): two comment
lines, a blank line, `plates_data = [`, one line per record, `]`. -/
def export_python_text (p : Option String) (db : List Sighting) : String :=
  joinSep "\n"
    (["# Generated export from License Plate Tracker",
      "# Copy the plates_data list into your seed_data.py file",
      "",
      "plates_data = ["] ++ (export_python p db).map renderEntry ++ ["]"])

-- ### Re-parsing the emitted text as Python source

/-- A parsed Python dict literal with string keys and string values. -/
abbrev PyDict := List (String × String)

/-- Skip the inter-token whitespace Python ignores inside brackets. -/
def skipWs (cs : List Char) : List Char :=
  cs.dropWhile (fun c => c == ' ' || c == '\t' || c == '\n' || c == '\r')

/-- Skip the leading blank lines and `#` comment lines of the pasted source
(the flag is true while inside a comment). -/
def skipHeaderAux : Bool → List Char → List Char
  | _, [] => []
  | true, c :: cs => if c == '\n' then skipHeaderAux false cs else skipHeaderAux true cs
  | false, c :: cs =>
    if c == ' ' || c == '\t' || c == '\r' || c == '\n' then skipHeaderAux false cs
    else if c == '#' then skipHeaderAux true cs
    else c :: cs

/-- Match an expected literal token character by character. -/
def expectChars : List Char → List Char → Option (List Char)
  | [], cs => some cs
  | _ :: _, [] => none
  | e :: es, c :: cs => if c == e then expectChars es cs else none

/-- Decoding of a Python `\<c>` escape in a string literal (the short
escapes; an unrecognized escape keeps its backslash, as Python does).
Because of this decoding, a value that contained backslash sequences
reloads as a DIFFERENT string than was exported. -/
def escSeq (d : Char) : List Char :=
  if d == 'n' then ['\n']
  else if d == 't' then ['\t']
  else if d == 'r' then ['\r']
  else if d == '\\' then ['\\']
  else if d == '\'' then ['\'']
  else if d == '"' then ['"']
  else if d == 'a' then ['\x07']
  else if d == 'b' then ['\x08']
  else if d == 'f' then ['\x0c']
  else if d == 'v' then ['\x0b']
  else if d == '0' then ['\x00']
  else ['\\', d]

/-- Body of a double-quoted Python string literal: characters up to the
closing quote, backslash escapes decoded; a raw newline or an unterminated
literal is a `SyntaxError`.  An unescaped `"` inside a value TERMINATES the
literal early, which is how quote-bearing values break the emitted code. -/
def parsePyStringBody : List Char → Option (List Char × List Char)
  | [] => none
  | c :: cs =>
    if c == '"' then some ([], cs)
    else if c == '\n' || c == '\r' then none
    else if c == '\\' then
      match cs with
      | [] => none
      | d :: ds => (parsePyStringBody ds).map (fun p => (escSeq d ++ p.1, p.2))
    else (parsePyStringBody cs).map (fun p => (c :: p.1, p.2))

/-- A double-quoted Python string literal. -/
def parsePyStr : List Char → Option (String × List Char)
  | [] => none
  | c :: cs =>
    if c == '"' then (parsePyStringBody cs).map (fun p => (String.mk p.1, p.2))
    else none

/-- One `"key": "value"` item of a dict literal. -/
def parsePyKV (cs : List Char) : Option ((String × String) × List Char) := do
  let (k, r1) ← parsePyStr (skipWs cs)
  let r2 ← expectChar ':' (skipWs r1)
  let (v, r3) ← parsePyStr (skipWs r2)
  some ((k, v), r3)

/-- The comma-separated items of a non-empty dict literal, up to the closing
brace; `fuel` bounds the loop (callers pass the source length). -/
def parsePairsAux : Nat → List Char → Option (PyDict × List Char)
  | 0, _ => none
  | fuel + 1, cs =>
    match parsePyKV cs with
    | none => none
    | some (kv, r) =>
      match skipWs r with
      | ',' :: r2 => (parsePairsAux fuel r2).map (fun p => (kv :: p.1, p.2))
      | c :: r2 => if c == '\x7d' then some ([kv], r2) else none
      | [] => none

/-- A dict literal of string keys and values. -/
def parsePyDict (fuel : Nat) (cs : List Char) : Option (PyDict × List Char) :=
  match skipWs cs with
  | c :: r =>
    if c == '\x7b' then
      match skipWs r with
      | c2 :: r2 => if c2 == '\x7d' then some ([], r2) else parsePairsAux fuel (c2 :: r2)
      | [] => none
    else none
  | [] => none

/-- The bracketed list of dict entries, with Python's trailing comma
allowed; `fuel` bounds the loop. -/
def parseEntriesAux : Nat → List Char → Option (List PyDict × List Char)
  | 0, _ => none
  | fuel + 1, cs =>
    match skipWs cs with
    | [] => none
    | c :: r =>
      if c == ']' then some ([], r)
      else
        match parsePyDict fuel (c :: r) with
        | none => none
        | some (d, r1) =>
          match skipWs r1 with
          | [] => none
          | c2 :: r2 =>
            if c2 == ',' then (parseEntriesAux fuel r2).map (fun p => (d :: p.1, p.2))
            else if c2 == ']' then some ([d], r2)
            else none

/-- The Python interpreter's evaluation of the emitted text, as running the
seed file with the pasted `plates_data` would: skip the leading
comment/blank lines, read the `plates_data = [ ... ]` assignment as a list
of dict literals; `none` where Python raises a `SyntaxError`. -/
def parsePlatesData (s : String) : Option (List PyDict) := do
  let cs := skipHeaderAux false s.data
  let cs1 ← expectChars "plates_data".data cs
  let cs2 ← expectChar '=' (skipWs cs1)
  let cs3 ← expectChar '[' (skipWs cs2)
  let (ds, rest) ← parseEntriesAux (s.data.length + 1) cs3
  if (skipWs rest).isEmpty then some ds else none

-- ### The demo seed loader (`seed_data_demo.py`)

/-- `data.get(k)` on a parsed dict (emitted dicts have distinct keys). -/
def dictGet (d : PyDict) (k : String) : Option String :=
  (d.find? (fun p => p.1 == k)).map (fun p => p.2)

/-- One iteration of `seed_database`'s loop over a parsed `plates_data`
dict: `data["state"]` etc. raise `KeyError` when absent, the timestamp is
parsed with `'%Y-%m-%d %H:%M:%S'` (a `ValueError` aborts the whole run),
`location` and `notes` use `.get`; `i` is the id the database will assign. -/
def seedSighting (i : Nat) (d : PyDict) : Option Sighting := do
  let st ← dictGet d "state"
  let pl ← dictGet d "plate"
  let mk ← dictGet d "make"
  let md ← dictGet d "model"
  let co ← dictGet d "color"
  let tstr ← dictGet d "timestamp"
  let t ← strptimeYmdHMS tstr
  some
    { id := i,
      state := st,
      license_plate := pl,
      car_make := mk,
      car_model := md,
      color := co,
      location := dictGet d "location",
      timestamp := some t,
      notes := dictGet d "notes",
      image_filename := none }

/-- The loop of `seed_database` over the parsed `plates_data`, assigning ids
from `i` upward; `none` when any dict makes the run raise. -/
def seedList (i : Nat) : List PyDict → Option (List Sighting)
  | [] => some []
  | d :: ds =>
    match seedSighting i d with
    | none => none
    | some s => (seedList (i + 1) ds).map (fun l => s :: l)

/-- `seed_database` of `seed_data_demo.py`: clear the table, insert one
record per data dict, commit; the resulting table contents (or `none` when
the run raises). -/
def seed_database (ds : List PyDict) : Option (List Sighting) :=
  seedList 1 ds

-- ### Bulk image importer

/-- Aggregate state of one `bulk_upload` POST: counts, error list, store. -/
structure BulkState where
  success : Nat
  error : Nat
  errors : List String
  store : Store
deriving Repr

/-- One iteration of `bulk_upload`'s loop over the submitted files: skip
empty filenames; reject disallowed extensions; otherwise match the file to a
record (exact `image_filename` equality first, then the first record whose
non-null `image_filename` ends with `_<uploaded-filename>`) and save the
bytes under the matched record's stored filename, or count a
"no matching sighting" failure. -/
def bulkStep (db : List Sighting) (st : BulkState) (f : UploadFile) : BulkState :=
  if f.filename = "" then st
  else if ¬ allowed_file f.filename then
    { st with
      error := st.error + 1,
      errors := st.errors ++ [f.filename ++ ": Invalid file type"] }
  else
    let exact := db.find? (fun s => s.image_filename == some f.filename)
    let target : Option String :=
      match exact with
      | some _ => some f.filename
      | none =>
        ((db.filter (fun s => s.image_filename.isSome)).find?
          (fun s => pyEndsWith (s.image_filename.getD "") ("_" ++ f.filename))).map
          (fun s => s.image_filename.getD "")
    match target with
    | none =>
      { st with
        error := st.error + 1,
        errors := st.errors ++ [f.filename ++ ": No matching sighting found in database"] }
    | some t =>
      { st with
        success := st.success + 1,
        store := Store.save st.store t f.content }

/-- `bulk_upload` (POST branch) of `app.py`: an empty batch (or one whose
filenames are all empty) redirects immediately; otherwise the files are
processed in submission order. -/
def bulk_upload (files : List UploadFile) (db : List Sighting) (st : Store) : BulkState :=
  if files.isEmpty || files.all (fun f => f.filename == "") then
    { success := 0, error := 0, errors := [], store := st }
  else files.foldl (bulkStep db) { success := 0, error := 0, errors := [], store := st }

/-- C7: for every valid create input the persisted record's `state` and
`license_plate` equal the upper-cased input values, and the same uppercase
normalization holds after every successful update. -/
theorem uppercase_normalization :
    (∀ form now newId st s, (add_sighting form now newId st).record = some s →
      s.state = pyUpper form.state ∧ s.license_plate = pyUpper form.license_plate) ∧
    (∀ s0 form st s, (edit_sighting s0 form st).record = some s →
      s.state = pyUpper form.state ∧ s.license_plate = pyUpper form.license_plate) := by
  constructor
  · intro form now newId st s h
    unfold add_sighting at h
    dsimp only at h
    repeat' split at h
    all_goals simp at h
    all_goals (rw [← h]; exact ⟨rfl, rfl⟩)
  · intro s0 form st s h
    unfold edit_sighting at h
    dsimp only at h
    repeat' split at h
    all_goals simp at h
    all_goals (rw [← h]; exact ⟨rfl, rfl⟩)

def c3Form : AddForm :=
  { state := "ca", license_plate := "abc123", car_make := "Honda", car_model := "Civic",
    color := "Blue", location := none, sighting_time := some "not-a-date", notes := none,
    image := none }

def c3Now : PyDateTime := ⟨2025, 10, 5, 12, 0, 0, 0⟩

/-- C3 counterexample: the claim says an unparseable date-time string makes
the timestamp default to the current server time with the record still
created; but on the concrete form whose `sighting_time` is `"not-a-date"`,
`strptime` raises, the route's `except` rolls the transaction back, and no
record is created at all. -/
theorem add_sighting_badtime_counterexample :
    ¬ ∃ s, (add_sighting c3Form c3Now 1 []).record = some s ∧ s.timestamp = some c3Now := by
  intro hx
  obtain ⟨s, hs, _⟩ := hx
  rw [show (add_sighting c3Form c3Now 1 []).record = none from by decide] at hs
  exact Option.noConfusion hs

/-- C3 (amended): when the date-time string is missing or empty, the
timestamp defaults to the current server time and the record is created;
when it is present but unparseable, the create fails (generic error, rolled
back) and no record is written. -/
theorem add_sighting_timestamp_default_amended :
    ∀ form now newId st,
      (pyTruthy form.sighting_time = false →
        ∃ s, (add_sighting form now newId st).record = some s ∧ s.timestamp = some now) ∧
      (∀ str, form.sighting_time = some str → str ≠ "" → strptimeYmdTHM str = none →
        (add_sighting form now newId st).record = none ∧
        (add_sighting form now newId st).dbOps = 0) := by
  intro form now newId st
  constructor
  · intro hfalse
    unfold add_sighting
    dsimp only
    rw [hfalse, if_neg (by decide : ¬ (false = true))]
    dsimp only
    repeat' split
    all_goals exact ⟨_, rfl, rfl⟩
  · intro str hstr hne hparse
    have htr : pyTruthy form.sighting_time = true := by
      rw [hstr]
      simp [pyTruthy, hne]
    unfold add_sighting
    rw [htr]
    dsimp only
    rw [hstr]
    dsimp only [Option.getD]
    rw [hparse]
    exact ⟨rfl, rfl⟩

theorem bulkStep_cases (db : List Sighting) (bs : BulkState) (f : UploadFile)
    (hf : f.filename ≠ "") :
    ((bulkStep db bs f).success = bs.success + 1 ∧ (bulkStep db bs f).error = bs.error ∧
      (bulkStep db bs f).errors = bs.errors) ∨
    ((bulkStep db bs f).success = bs.success ∧ (bulkStep db bs f).error = bs.error + 1 ∧
      ∃ m, (bulkStep db bs f).errors = bs.errors ++ [m]) := by
  unfold bulkStep
  rw [if_neg hf]
  split
  · right
    exact ⟨rfl, rfl, ⟨_, rfl⟩⟩
  · dsimp only
    split
    · right
      exact ⟨rfl, rfl, ⟨_, rfl⟩⟩
    · left
      exact ⟨rfl, rfl, rfl⟩

theorem bulk_fold_counts (db : List Sighting) :
    ∀ (files : List UploadFile) (bs : BulkState), bs.errors.length = bs.error →
      ((files.foldl (bulkStep db) bs).success + (files.foldl (bulkStep db) bs).error
        = bs.success + bs.error + (files.filter (fun f => f.filename != "")).length) ∧
      (files.foldl (bulkStep db) bs).errors.length = (files.foldl (bulkStep db) bs).error := by
  intro files
  induction files with
  | nil =>
    intro bs h
    refine ⟨by simp, by simpa using h⟩
  | cons f fs ih =>
    intro bs h
    rw [List.foldl_cons]
    by_cases hf : f.filename = ""
    · have hstep : bulkStep db bs f = bs := by
        simp [bulkStep, hf]
      rw [hstep]
      rcases ih bs h with ⟨h1, h2⟩
      refine ⟨?_, h2⟩
      rw [h1]
      simp [List.filter_cons, hf]
    · have hlen : (fs.filter (fun f => f.filename != "")).length + 1
          = ((f :: fs).filter (fun f => f.filename != "")).length := by
        simp [List.filter_cons, hf]
      rcases bulkStep_cases db bs f hf with ⟨h1, h2, h3⟩ | ⟨h1, h2, m, h3⟩
      · have hinv : (bulkStep db bs f).errors.length = (bulkStep db bs f).error := by
          rw [h3, h2, h]
        rcases ih (bulkStep db bs f) hinv with ⟨g1, g2⟩
        refine ⟨?_, g2⟩
        rw [g1, h1, h2, ← hlen]
        ring
      · have hinv : (bulkStep db bs f).errors.length = (bulkStep db bs f).error := by
          rw [h3, h2]
          simp [h]
        rcases ih (bulkStep db bs f) hinv with ⟨g1, g2⟩
        refine ⟨?_, g2⟩
        rw [g1, h1, h2, ← hlen]
        ring

/-- C10: an uploaded file with an empty filename is skipped outright —
it leaves the batch state unchanged, so it increments neither counter and
produces no error message — and consequently success count plus error count
equals the number of files with non-empty filenames, with every failure
contributing exactly one error message. -/
theorem bulk_upload_counts :
    ∀ files db st,
      (∀ bs c, bulkStep db bs ⟨"", c⟩ = bs) ∧
      ((bulk_upload files db st).success + (bulk_upload files db st).error
        = (files.filter (fun f => f.filename != "")).length) ∧
      (bulk_upload files db st).errors.length = (bulk_upload files db st).error := by
  intro files db st
  refine ⟨fun bs c => by simp [bulkStep], ?_, ?_⟩
  · unfold bulk_upload
    split
    · next hcond =>
      have hfil : (files.filter (fun f => f.filename != "")).length = 0 := by
        rw [Bool.or_eq_true] at hcond
        cases hcond with
        | inl h =>
          rw [List.isEmpty_iff.mp h]
          rfl
        | inr h =>
          have hall := List.all_eq_true.mp h
          have : files.filter (fun f => f.filename != "") = [] := by
            rw [List.filter_eq_nil_iff]
            intro a ha
            have := hall a ha
            simp at this
            simp [this]
          rw [this]
          rfl
      simp [hfil]
    · have := bulk_fold_counts db files ⟨0, 0, [], st⟩ rfl
      simpa using this.1
  · unfold bulk_upload
    split
    · rfl
    · have := bulk_fold_counts db files ⟨0, 0, [], st⟩ rfl
      simpa using this.2

theorem allowed_file_empty : allowed_file "" = false := by decide

theorem Store.lookup_save_self (st : Store) (n : String) (b : Bytes) :
    Store.lookup (Store.save st n b) n = some b := by
  simp [Store.lookup, Store.save, List.lookup]

/-- The matching rule of §4.4 as the spec words it: the target filename under
which an uploaded file's bytes get stored — the uploaded name itself when
some record's `image_filename` equals it verbatim, otherwise the stored
`image_filename` of the first record whose non-null filename ends with
`_<uploaded-filename>`; `none` when no record matches. -/
def bulkMatchTarget (db : List Sighting) (uploaded : String) : Option String :=
  if (db.find? (fun s => s.image_filename == some uploaded)).isSome then some uploaded
  else
    ((db.filter (fun s => s.image_filename.isSome)).find?
      (fun s => pyEndsWith (s.image_filename.getD "") ("_" ++ uploaded))).map
      (fun s => s.image_filename.getD "")

/-- C1: for every bulk-import file with an allowed extension, the importer
resolves the target per the spec rule `bulkMatchTarget` (a record whose
`image_filename` equals the uploaded name verbatim first, else the first
record whose non-null `image_filename` ends with `_<uploaded-filename>`);
on a match it writes the uploaded bytes under the matched record's existing
`image_filename`, overwriting any existing file, and on no match it counts
a failure with a "no matching sighting" message. -/
theorem bulk_upload_matching :
    ∀ db bs f, allowed_file f.filename = true →
      (∀ target, bulkMatchTarget db f.filename = some target →
        (bulkStep db bs f).success = bs.success + 1 ∧
        (bulkStep db bs f).error = bs.error ∧
        (bulkStep db bs f).errors = bs.errors ∧
        (bulkStep db bs f).store = Store.save bs.store target f.content ∧
        Store.lookup (bulkStep db bs f).store target = some f.content) ∧
      (bulkMatchTarget db f.filename = none →
        (bulkStep db bs f).success = bs.success ∧
        (bulkStep db bs f).error = bs.error + 1 ∧
        (bulkStep db bs f).errors
          = bs.errors ++ [f.filename ++ ": No matching sighting found in database"] ∧
        (bulkStep db bs f).store = bs.store) := by
  intro db bs f hall
  have hne : f.filename ≠ "" := by
    intro h
    rw [h] at hall
    exact absurd hall (by decide)
  constructor
  · intro target htgt
    unfold bulkMatchTarget at htgt
    unfold bulkStep
    rw [if_neg hne]
    cases hexact : db.find? (fun s => s.image_filename == some f.filename) with
    | some s =>
      rw [hexact] at htgt
      simp only [Option.isSome_some, if_true] at htgt
      rw [Option.some.injEq] at htgt
      subst htgt
      simp [hall, hexact, Store.lookup_save_self]
    | none =>
      rw [hexact] at htgt
      simp only [Option.isSome_none, Bool.false_eq_true, if_false] at htgt
      cases hsuf : (db.filter (fun s => s.image_filename.isSome)).find?
          (fun s => pyEndsWith (s.image_filename.getD "") ("_" ++ f.filename)) with
      | none => rw [hsuf] at htgt; simp at htgt
      | some s =>
        rw [hsuf] at htgt
        simp at htgt
        subst htgt
        simp [hall, hexact, hsuf, Store.lookup_save_self]
  · intro htgt
    unfold bulkMatchTarget at htgt
    unfold bulkStep
    rw [if_neg hne]
    cases hexact : db.find? (fun s => s.image_filename == some f.filename) with
    | some s => rw [hexact] at htgt; simp at htgt
    | none =>
      rw [hexact] at htgt
      simp only [Option.isSome_none, Bool.false_eq_true, if_false] at htgt
      cases hsuf : (db.filter (fun s => s.image_filename.isSome)).find?
          (fun s => pyEndsWith (s.image_filename.getD "") ("_" ++ f.filename)) with
      | some s => rw [hsuf] at htgt; simp at htgt
      | none => simp [hall, hexact, hsuf]

theorem Store.lookup_remove_self (st : Store) (f : String) :
    Store.lookup (Store.remove st f) f = none := by
  induction st with
  | nil => rfl
  | cons p l ih =>
    simp only [Store.remove, List.filter_cons] at *
    by_cases hp : p.1 = f
    · simp [hp] at *
      exact ih
    · have : (p.1 != f) = true := by simp [hp]
      rw [this]
      simp only [Store.lookup, List.lookup]
      have : (f == p.1) = false := by simp [Ne.symm hp]
      rw [this]
      exact ih

theorem getSighting_eraseP (db : List Sighting) (i : Nat)
    (hnd : (db.map Sighting.id).Nodup) (hex : (getSighting db i).isSome = true) :
    getSighting (db.eraseP (fun r => r.id == i)) i = none := by
  induction db with
  | nil => simp [getSighting] at hex
  | cons a l ih =>
    rw [List.map_cons, List.nodup_cons] at hnd
    by_cases ha : a.id = i
    · rw [List.eraseP_cons_of_pos (by simp [ha])]
      rw [getSighting, List.find?_eq_none]
      intro x hx
      simp only [beq_iff_eq]
      intro hxi
      exact hnd.1 (List.mem_map.mpr ⟨x, hx, by rw [hxi, ha]⟩)
    · rw [List.eraseP_cons_of_neg (by simp [ha])]
      unfold getSighting at *
      rw [List.find?_cons_of_neg _ (by simp [ha])] at *
      exact ih hnd.2 hex

/-- C8: deleting a record with a non-null (non-empty) `image_filename`
leaves no file of that name in the image store (removing it, or a no-op if
already absent), removes the record, and a subsequent fetch of that id
returns not-found. -/
theorem delete_sighting_removes :
    ∀ db st i s f, (db.map Sighting.id).Nodup → getSighting db i = some s →
      s.image_filename = some f → f ≠ "" →
      Store.lookup (delete_sighting db st i).store f = none ∧
      getSighting (delete_sighting db st i).db i = none ∧
      (delete_sighting db st i).found = true := by
  intro db st i s f hnd hget him hne
  unfold delete_sighting
  rw [hget]
  dsimp only
  rw [him]
  have htr : pyTruthy (some f) = true := by simp [pyTruthy, hne]
  rw [if_pos htr]
  unfold delete_image
  dsimp only
  have herase : getSighting (db.eraseP (fun r => r.id == i)) i = none :=
    getSighting_eraseP db i hnd (by rw [hget]; rfl)
  by_cases hex : Store.existsFile st f = true
  · rw [if_pos (by simp [hne, hex])]
    exact ⟨Store.lookup_remove_self st f, herase, rfl⟩
  · rw [if_neg (by simp [hex])]
    refine ⟨?_, herase, rfl⟩
    rw [Bool.not_eq_true] at hex
    unfold Store.existsFile at hex
    exact Option.not_isSome_iff_eq_none.mp (by rw [hex]; simp)

/-- C6: the archive export never includes an `images/` entry for a record
whose `image_filename` names a file missing from the image store, while the
CSV inside the archive has one row per record, so its row count equals the
total record count. -/
theorem export_zip_missing_images :
    ∀ p db st,
      (∀ s f, s ∈ db → s.image_filename = some f → Store.existsFile st f = false →
        f ∉ (export_zip p db st).imageEntries) ∧
      (export_zip p db st).csvRows.length = db.length := by
  intro p db st
  constructor
  · intro s f hs him hex hmem
    unfold export_zip at hmem
    dsimp only at hmem
    rw [List.mem_dedup, List.mem_filter] at hmem
    rw [hmem.2] at hex
    exact Bool.noConfusion hex
  · unfold export_zip
    dsimp only
    rw [List.length_map]
    exact (List.perm_insertionSort _ db).length_eq

theorem includeNotesFlag_iff (p : Option String) :
    (pyLower (p.getD "true") == "true") = true ↔
      (p = none ∨ ∃ v, p = some v ∧ pyLower v = "true") := by
  cases p with
  | none =>
    constructor
    · intro _
      exact Or.inl rfl
    · intro _
      decide
  | some v =>
    simp only [Option.getD, beq_iff_eq]
    constructor
    · intro h
      exact Or.inr ⟨v, rfl, h⟩
    · rintro (h | ⟨w, hw, h⟩)
      · exact Option.noConfusion h
      · rw [Option.some.injEq] at hw
        rw [hw]
        exact h

theorem notes_mem_csvFieldnames (b : Bool) : "notes" ∈ csvFieldnames b ↔ b = true := by
  cases b <;> decide

theorem sightingCsvRow_notes_isSome (b : Bool) (s : Sighting) :
    (sightingCsvRow b s).notes.isSome = b := by
  cases b <;> rfl

theorem sightingSeedDict_notes_isSome (b : Bool) (s : Sighting) :
    (sightingSeedDict b s).notes.isSome = b := by
  cases b <;> rfl

/-- C9: in all three exports the notes field is included exactly when the
`include_notes` query parameter is absent or equals `"true"`
case-insensitively — in the CSV and archive fieldnames and rows, and in the
code-literal dicts alike. -/
theorem export_include_notes_uniform :
    ∀ p db st,
      (("notes" ∈ (export_csv p db).fieldnames ↔
          (p = none ∨ ∃ v, p = some v ∧ pyLower v = "true")) ∧
        (∀ r ∈ (export_csv p db).rows, r.notes.isSome = true ↔
          (p = none ∨ ∃ v, p = some v ∧ pyLower v = "true"))) ∧
      (("notes" ∈ (export_zip p db st).fieldnames ↔
          (p = none ∨ ∃ v, p = some v ∧ pyLower v = "true")) ∧
        (∀ r ∈ (export_zip p db st).csvRows, r.notes.isSome = true ↔
          (p = none ∨ ∃ v, p = some v ∧ pyLower v = "true"))) ∧
      (∀ d ∈ export_python p db, d.notes.isSome = true ↔
        (p = none ∨ ∃ v, p = some v ∧ pyLower v = "true")) := by
  intro p db st
  refine ⟨⟨?_, ?_⟩, ⟨?_, ?_⟩, ?_⟩
  · unfold export_csv
    rw [notes_mem_csvFieldnames]
    exact includeNotesFlag_iff p
  · intro r hr
    unfold export_csv at hr
    dsimp only at hr
    rw [List.mem_map] at hr
    obtain ⟨s, _, rfl⟩ := hr
    rw [sightingCsvRow_notes_isSome]
    exact includeNotesFlag_iff p
  · unfold export_zip
    rw [notes_mem_csvFieldnames]
    exact includeNotesFlag_iff p
  · intro r hr
    unfold export_zip at hr
    dsimp only at hr
    rw [List.mem_map] at hr
    obtain ⟨s, _, rfl⟩ := hr
    rw [sightingCsvRow_notes_isSome]
    exact includeNotesFlag_iff p
  · intro d hd
    unfold export_python at hd
    dsimp only at hd
    rw [List.mem_map] at hd
    obtain ⟨s, _, rfl⟩ := hd
    rw [sightingSeedDict_notes_isSome]
    exact includeNotesFlag_iff p

def c5recA : Sighting :=
  { id := 1, state := "CA", license_plate := "AAA111", car_make := "Honda", car_model := "Civic",
    color := "Blue", location := none, timestamp := some ⟨2025, 10, 5, 23, 59, 0, 0⟩,
    notes := none, image_filename := none }

def c5recB : Sighting :=
  { id := 2, state := "NY", license_plate := "BBB222", car_make := "Ford", car_model := "F-150",
    color := "Red", location := none, timestamp := some ⟨2025, 10, 6, 0, 0, 1, 0⟩,
    notes := none, image_filename := none }

/-- C5: the date-range filter is inclusive of the whole start day and the
whole end day, implemented as `start <= timestamp < end + 1 day`; with
`start_date = end_date = 2025-10-05` a record timestamped
`2025-10-05 23:59:00` is included and one timestamped `2025-10-06 00:00:01`
is excluded. -/
theorem date_range_filter_day_inclusive :
    (∀ db s, s ∈ dateRangeFilter "2025-10-05" "2025-10-05" db ↔
      (s ∈ db ∧ ∃ t, s.timestamp = some t ∧
        PyDateTime.leb ⟨2025, 10, 5, 0, 0, 0, 0⟩ t = true ∧
        PyDateTime.ltb t (addOneDay ⟨2025, 10, 5, 0, 0, 0, 0⟩) = true)) ∧
    addOneDay ⟨2025, 10, 5, 0, 0, 0, 0⟩ = ⟨2025, 10, 6, 0, 0, 0, 0⟩ ∧
    dateRangeFilter "2025-10-05" "2025-10-05" [c5recA, c5recB] = [c5recA] := by
  refine ⟨?_, by decide, by decide⟩
  intro db s
  unfold dateRangeFilter
  have hp : strptimeYmd "2025-10-05" = some ⟨2025, 10, 5, 0, 0, 0, 0⟩ := by decide
  simp only [if_neg (by decide : ¬ ("2025-10-05" = "")), hp]
  constructor
  · intro h
    rw [List.mem_filter] at h
    obtain ⟨h1, h2⟩ := h
    rw [List.mem_filter] at h1
    obtain ⟨hmem, hstart⟩ := h1
    refine ⟨hmem, ?_⟩
    cases hts : s.timestamp with
    | none =>
      rw [hts] at hstart
      exact Bool.noConfusion hstart
    | some t =>
      rw [hts] at hstart h2
      exact ⟨t, rfl, hstart, h2⟩
  · rintro ⟨hmem, t, hts, hle, hlt⟩
    rw [List.mem_filter]
    refine ⟨List.mem_filter.mpr ⟨hmem, ?_⟩, ?_⟩ <;> rw [hts]
    · exact hle
    · exact hlt

def c4Sight : Sighting :=
  { id := 1, state := "CA", license_plate := "AAA111", car_make := "Honda", car_model := "Civic",
    color := "Blue", location := none, timestamp := some ⟨2025, 10, 5, 12, 0, 0, 0⟩,
    notes := none, image_filename := some "sighting_1_old.jpg" }

def c4Form : EditForm :=
  { state := "CA", license_plate := "AAA111", car_make := "Honda", car_model := "Civic",
    color := "Blue", location := none, sighting_time := none, notes := none,
    remove_image := none, image := some ⟨"new.jpg", [9]⟩ }

def c4Store : Store := [("sighting_1_old.jpg", [1])]

/-- C4 counterexample: the claim says every service call performs at most
one image-file write or delete; but an edit that replaces an existing image
deletes the old file and writes the new one — two file operations in one
call. -/
theorem edit_two_file_ops_counterexample :
    ¬ ((edit_sighting c4Sight c4Form c4Store).fileOps.length ≤ 1 ∧
      (edit_sighting c4Sight c4Form c4Store).dbOps ≤ 1) := by
  intro h
  exact absurd h.1 (by decide)

theorem delete_image_ops (st : Store) (f : Option String) :
    (delete_image st f).2 = [] ∨ ∃ n, (delete_image st f).2 = [FileOp.delete n] := by
  unfold delete_image
  repeat' split
  · exact Or.inl rfl
  · exact Or.inr ⟨_, rfl⟩
  · exact Or.inl rfl

theorem save_image_ops (st : Store) (file : UploadFile) (i : Nat) :
    (save_image st file i).2.2 = [] ∨ ∃ n, (save_image st file i).2.2 = [FileOp.write n] := by
  unfold save_image
  split
  · exact Or.inr ⟨_, rfl⟩
  · exact Or.inl rfl

/-- A trace that is one best-effort delete followed by one write: the worst
case any service call produces. -/
def DeleteThenWrite (l : List FileOp) : Prop :=
  ∃ dl wl, l = dl ++ wl ∧ (dl = [] ∨ ∃ n, dl = [FileOp.delete n]) ∧
    (wl = [] ∨ ∃ n, wl = [FileOp.write n])

theorem deleteThenWrite_counts (l : List FileOp) (h : DeleteThenWrite l) :
    (l.filter FileOp.isWrite).length ≤ 1 ∧ (l.filter FileOp.isDelete).length ≤ 1 := by
  obtain ⟨dl, wl, rfl, hd, hw⟩ := h
  rcases hd with rfl | ⟨n, rfl⟩ <;> rcases hw with rfl | ⟨m, rfl⟩ <;>
    simp [FileOp.isWrite, FileOp.isDelete]

theorem dtw_nil : DeleteThenWrite [] :=
  ⟨[], [], rfl, Or.inl rfl, Or.inl rfl⟩

theorem dtw_del (st : Store) (f : Option String) : DeleteThenWrite (delete_image st f).2 :=
  ⟨(delete_image st f).2, [], (List.append_nil _).symm, delete_image_ops st f, Or.inl rfl⟩

theorem dtw_save (st : Store) (file : UploadFile) (i : Nat) :
    DeleteThenWrite (save_image st file i).2.2 :=
  ⟨[], (save_image st file i).2.2, rfl, Or.inl rfl, save_image_ops st file i⟩

theorem dtw_del_save (st : Store) (f : Option String) (st2 : Store) (file : UploadFile)
    (i : Nat) : DeleteThenWrite ((delete_image st f).2 ++ (save_image st2 file i).2.2) :=
  ⟨(delete_image st f).2, (save_image st2 file i).2.2, rfl,
    delete_image_ops st f, save_image_ops st2 file i⟩

theorem add_fileOps_shape (form : AddForm) (now : PyDateTime) (newId : Nat) (st : Store) :
    DeleteThenWrite (add_sighting form now newId st).fileOps := by
  unfold add_sighting
  dsimp only
  repeat' split
  all_goals first
    | exact dtw_nil
    | exact dtw_save _ _ _

theorem edit_fileOps_shape (s0 : Sighting) (form : EditForm) (st : Store) :
    DeleteThenWrite (edit_sighting s0 form st).fileOps := by
  unfold edit_sighting
  dsimp only
  repeat' split
  all_goals simp only [List.append_nil, List.nil_append]
  all_goals first
    | exact dtw_nil
    | exact dtw_del _ _
    | exact dtw_save _ _ _
    | exact dtw_del_save _ _ _ _ _

theorem delete_fileOps_shape (db : List Sighting) (st : Store) (i : Nat) :
    DeleteThenWrite (delete_sighting db st i).fileOps := by
  unfold delete_sighting
  dsimp only
  repeat' split
  all_goals first
    | exact dtw_nil
    | exact dtw_del _ _

/-- C4 (amended): every sighting-service call (create, update, delete)
performs at most one image-file delete plus at most one image-file write
(so at most two file operations, only the edit-with-replacement path
reaching two), and at most one record write or delete. -/
theorem service_file_ops_amended :
    (∀ form now newId st,
      ((add_sighting form now newId st).fileOps.filter FileOp.isWrite).length ≤ 1 ∧
      ((add_sighting form now newId st).fileOps.filter FileOp.isDelete).length ≤ 1 ∧
      (add_sighting form now newId st).dbOps ≤ 1) ∧
    (∀ s0 form st,
      ((edit_sighting s0 form st).fileOps.filter FileOp.isWrite).length ≤ 1 ∧
      ((edit_sighting s0 form st).fileOps.filter FileOp.isDelete).length ≤ 1 ∧
      (edit_sighting s0 form st).dbOps ≤ 1) ∧
    (∀ db st i,
      ((delete_sighting db st i).fileOps.filter FileOp.isWrite).length ≤ 1 ∧
      ((delete_sighting db st i).fileOps.filter FileOp.isDelete).length ≤ 1 ∧
      (delete_sighting db st i).dbOps ≤ 1) := by
  refine ⟨?_, ?_, ?_⟩
  · intro form now newId st
    obtain ⟨h1, h2⟩ := deleteThenWrite_counts _ (add_fileOps_shape form now newId st)
    refine ⟨h1, h2, ?_⟩
    unfold add_sighting
    dsimp only
    repeat' split
    all_goals simp
  · intro s0 form st
    obtain ⟨h1, h2⟩ := deleteThenWrite_counts _ (edit_fileOps_shape s0 form st)
    refine ⟨h1, h2, ?_⟩
    unfold edit_sighting
    dsimp only
    repeat' split
    all_goals simp
  · intro db st i
    obtain ⟨h1, h2⟩ := deleteThenWrite_counts _ (delete_fileOps_shape db st i)
    refine ⟨h1, h2, ?_⟩
    unfold delete_sighting
    dsimp only
    repeat' split
    all_goals simp

/-- The tuple of a record the round-trip property compares. -/
def keyTuple (s : Sighting) : String × String × String × String × String :=
  (s.state, s.license_plate, s.car_make, s.car_model, s.color)

/-- The key tuple plus the timestamp and notes, for the preservation part. -/
def fullTuple (s : Sighting) :
    (String × String × String × String × String) × Option PyDateTime × Option String :=
  (keyTuple s, s.timestamp, s.notes)

theorem pydt_usec_eta (t : PyDateTime) (h : t.microsecond = 0) :
    { t with microsecond := 0 } = t := by
  cases t
  simp at h
  rw [h]

-- ### Witnesses: the claim theorems applied at concrete inputs

def c1Rec : Sighting :=
  { id := 5, state := "CA", license_plate := "XYZ9876", car_make := "Toyota", car_model := "Camry",
    color := "Silver", location := none, timestamp := none, notes := none,
    image_filename := some "sighting_5_photo.jpg" }

/-- Witness for C1: uploading `photo.jpg` against a record stored as
`sighting_5_photo.jpg` suffix-matches and overwrites that stored file. -/
theorem bulk_upload_matching_witness :
    allowed_file "photo.jpg" = true ∧
    bulkMatchTarget [c1Rec] "photo.jpg" = some "sighting_5_photo.jpg" ∧
    Store.lookup (bulkStep [c1Rec] ⟨0, 0, [], []⟩ ⟨"photo.jpg", [7]⟩).store
      "sighting_5_photo.jpg" = some [7] :=
  ⟨by decide, by decide,
    ((bulk_upload_matching [c1Rec] ⟨0, 0, [], []⟩ ⟨"photo.jpg", [7]⟩ (by decide)).1
      "sighting_5_photo.jpg" (by decide)).2.2.2.2⟩

def c3FormNoTime : AddForm :=
  { c3Form with sighting_time := none }

/-- Witness for C3 (amended): a missing date-time string defaults the
timestamp to the current time and creates the record, while the unparseable
string `"not-a-date"` aborts the create. -/
theorem add_sighting_timestamp_default_amended_witness :
    (∃ s, (add_sighting c3FormNoTime c3Now 1 []).record = some s ∧
      s.timestamp = some c3Now) ∧
    (add_sighting c3Form c3Now 1 []).record = none := by
  constructor
  · exact (add_sighting_timestamp_default_amended c3FormNoTime c3Now 1 []).1 rfl
  · exact ((add_sighting_timestamp_default_amended c3Form c3Now 1 []).2 "not-a-date" rfl
      (by decide) (by decide)).1

def c6Rec : Sighting :=
  { id := 4, state := "FL", license_plate := "GHI2345", car_make := "Chevrolet",
    car_model := "Silverado", color := "Black", location := none,
    timestamp := some ⟨2025, 10, 8, 18, 45, 0, 0⟩, notes := none,
    image_filename := some "missing.jpg" }

/-- Witness for C6: a record whose `image_filename` has no backing file
yields no `images/` entry, while the CSV still has its row. -/
theorem export_zip_missing_images_witness :
    "missing.jpg" ∉ (export_zip none [c6Rec] []).imageEntries ∧
    (export_zip none [c6Rec] []).csvRows.length = 1 := by
  have h := export_zip_missing_images none [c6Rec] []
  exact ⟨h.1 c6Rec "missing.jpg" (List.mem_singleton.mpr rfl) rfl (by decide), h.2⟩

def c7Form : AddForm :=
  { state := "ca", license_plate := "abc123", car_make := "Honda", car_model := "Civic",
    color := "Blue", location := none, sighting_time := none, notes := none, image := none }

def c7Rec : Sighting :=
  { id := 1, state := "CA", license_plate := "ABC123", car_make := "Honda", car_model := "Civic",
    color := "Blue", location := none, timestamp := some c3Now, notes := none,
    image_filename := none }

/-- Witness for C7: creating with lower-case `ca` / `abc123` persists the
upper-cased values. -/
theorem uppercase_normalization_witness :
    c7Rec.state = pyUpper c7Form.state ∧ c7Rec.license_plate = pyUpper c7Form.license_plate :=
  uppercase_normalization.1 c7Form c3Now 1 [] c7Rec (by decide)

def c8Rec : Sighting :=
  { id := 5, state := "CA", license_plate := "XYZ9876", car_make := "Toyota", car_model := "Camry",
    color := "Silver", location := none, timestamp := none, notes := none,
    image_filename := some "sighting_5_photo.jpg" }

def c8Store : Store := [("sighting_5_photo.jpg", [1])]

/-- Witness for C8: deleting the record with id 5 removes its stored image
and the record; fetching id 5 afterwards finds nothing. -/
theorem delete_sighting_removes_witness :
    Store.lookup (delete_sighting [c8Rec] c8Store 5).store "sighting_5_photo.jpg" = none ∧
    getSighting (delete_sighting [c8Rec] c8Store 5).db 5 = none ∧
    (delete_sighting [c8Rec] c8Store 5).found = true :=
  delete_sighting_removes [c8Rec] c8Store 5 c8Rec "sighting_5_photo.jpg" (by decide)
    (by decide) rfl (by decide)

/-- Witness for C9 at the parameter value `FALSE`, which lower-cases to
`"false"` and therefore excludes the notes column. -/
theorem export_include_notes_uniform_witness :
    "notes" ∈ (export_csv (some "FALSE") []).fieldnames ↔
      ((some "FALSE" : Option String) = none ∨
        ∃ v, (some "FALSE" : Option String) = some v ∧ pyLower v = "true") :=
  (export_include_notes_uniform (some "FALSE") [] []).1.1

-- ### Literal safety and the code-literal round trip

/-- A character that survives unescaped interpolation into a double-quoted
Python string literal: not a quote, backslash, or line break. -/
def safeChar (c : Char) : Bool :=
  c != '"' && c != '\\' && c != '\n' && c != '\r'

/-- A value whose unescaped interpolation stays a well-formed literal that
reloads verbatim. -/
def litSafe (v : String) : Bool :=
  v.data.all safeChar

/-- All the text fields the code-literal export interpolates, literal-safe. -/
def SafeSighting (s : Sighting) : Bool :=
  litSafe s.state && litSafe s.license_plate && litSafe s.car_make &&
    litSafe s.car_model && litSafe s.color && litSafe (s.location.getD "") &&
    litSafe (s.notes.getD "") && litSafe (s.image_filename.getD "")

theorem safeChar_of_isDigit (c : Char) (h : c.isDigit = true) : safeChar c = true := by
  unfold safeChar
  have h1 : (c != '"') = true := by
    by_contra hx
    rw [Bool.not_eq_true, bne_eq_false_iff_eq] at hx
    subst hx
    exact absurd h (by decide)
  have h2 : (c != '\\') = true := by
    by_contra hx
    rw [Bool.not_eq_true, bne_eq_false_iff_eq] at hx
    subst hx
    exact absurd h (by decide)
  have h3 : (c != '\n') = true := by
    by_contra hx
    rw [Bool.not_eq_true, bne_eq_false_iff_eq] at hx
    subst hx
    exact absurd h (by decide)
  have h4 : (c != '\r') = true := by
    by_contra hx
    rw [Bool.not_eq_true, bne_eq_false_iff_eq] at hx
    subst hx
    exact absurd h (by decide)
  rw [h1, h2, h3, h4]
  rfl

theorem litSafe_strftime (t : PyDateTime) : litSafe (strftimeYmdHMS t) = true := by
  have hdata : (strftimeYmdHMS t).data =
      padChars 4 t.year ++ ('-' :: (padChars 2 t.month ++ ('-' :: (padChars 2 t.day ++
        (' ' :: (padChars 2 t.hour ++ (':' :: (padChars 2 t.minute ++
          (':' :: (padChars 2 t.second ++ ([] : List Char))))))))))) := by
    simp only [strftimeYmdHMS, pad, string_data_append, string_data_mk]
    simp
  have hpad : ∀ w n, (padChars w n).all safeChar = true := by
    intro w n
    rw [List.all_eq_true]
    intro c hc
    exact safeChar_of_isDigit c (padChars_all_digits w n c hc)
  rw [litSafe, hdata]
  simp only [List.all_append, List.all_cons, hpad, Bool.true_and, Bool.and_true]
  decide

theorem parsePyStringBody_safe :
    ∀ (v : List Char) (rest : List Char), v.all safeChar = true →
      parsePyStringBody (v ++ '"' :: rest) = some (v, rest) := by
  intro v
  induction v with
  | nil =>
    intro rest _
    rw [List.nil_append]
    unfold parsePyStringBody
    rw [if_pos (by decide : (('"' == ('"' : Char)) = true))]
  | cons c cs ih =>
    intro rest hall
    rw [List.all_cons, Bool.and_eq_true] at hall
    obtain ⟨hc, hcs⟩ := hall
    unfold safeChar at hc
    simp only [Bool.and_eq_true, bne_iff_ne] at hc
    obtain ⟨⟨⟨h1, h2⟩, h3⟩, h4⟩ := hc
    rw [List.cons_append]
    unfold parsePyStringBody
    rw [if_neg (by simp [h1]), if_neg (by simp [h3, h4]), if_neg (by simp [h2])]
    rw [ih rest hcs]
    rfl

theorem string_mk_data (s : String) : String.mk s.data = s := by
  cases s
  rfl

theorem parsePyStr_safe (v : String) (rest : List Char) (h : litSafe v = true) :
    parsePyStr ('"' :: (v.data ++ '"' :: rest)) = some (v, rest) := by
  have hstep : parsePyStr ('"' :: (v.data ++ '"' :: rest))
      = (parsePyStringBody (v.data ++ '"' :: rest)).map (fun p => (String.mk p.1, p.2)) := rfl
  rw [hstep, parsePyStringBody_safe v.data rest h]
  simp [string_mk_data]

theorem skipWs_cons_of_neg (c : Char) (cs : List Char)
    (h : (c == ' ' || c == '\t' || c == '\n' || c == '\r') = false) :
    skipWs (c :: cs) = c :: cs := by
  unfold skipWs
  rw [List.dropWhile_cons, if_neg (by simp [h])]

theorem skipWs_cons_of_pos (c : Char) (cs : List Char)
    (h : (c == ' ' || c == '\t' || c == '\n' || c == '\r') = true) :
    skipWs (c :: cs) = skipWs cs := by
  unfold skipWs
  rw [List.dropWhile_cons, if_pos (by simp [h])]

theorem renderKV_data (k v : String) :
    (renderKV (k, v)).data
      = '"' :: (k.data ++ '"' :: ':' :: ' ' :: '"' :: (v.data ++ '"' :: [])) := by
  unfold renderKV
  simp only [string_data_append, string_data_mk]
  simp

theorem parsePyKV_safe (k v : String) (rest : List Char)
    (hk : litSafe k = true) (hv : litSafe v = true) :
    parsePyKV ((renderKV (k, v)).data ++ rest) = some ((k, v), rest) := by
  rw [renderKV_data]
  unfold parsePyKV
  rw [List.cons_append, List.append_assoc]
  rw [skipWs_cons_of_neg '"' _ (by decide)]
  rw [show (('"' :: ':' :: ' ' :: '"' :: (v.data ++ ['"'])) ++ rest)
      = ('"' :: ':' :: ' ' :: '"' :: (v.data ++ '"' :: rest)) by simp]
  rw [parsePyStr_safe k _ hk]
  simp only [Option.bind_eq_bind, Option.some_bind]
  rw [skipWs_cons_of_neg ':' _ (by decide)]
  rw [show expectChar ':' (':' :: ' ' :: '"' :: (v.data ++ '"' :: rest))
      = some (' ' :: '"' :: (v.data ++ '"' :: rest)) from rfl]
  simp only [Option.some_bind]
  rw [skipWs_cons_of_pos ' ' _ (by decide), skipWs_cons_of_neg '"' _ (by decide)]
  rw [parsePyStr_safe v rest hv]
  rfl

theorem parsePyKV_ws (cs : List Char) : parsePyKV (' ' :: cs) = parsePyKV cs := by
  unfold parsePyKV
  rw [skipWs_cons_of_pos ' ' cs (by decide)]

theorem parsePairsAux_ws (fuel : Nat) (cs : List Char) :
    parsePairsAux fuel (' ' :: cs) = parsePairsAux fuel cs := by
  cases fuel with
  | zero => rfl
  | succ f =>
    unfold parsePairsAux
    rw [parsePyKV_ws]

theorem parsePairs_safe :
    ∀ (ps : PyDict) (fuel : Nat) (rest : List Char), ps ≠ [] → ps.length ≤ fuel →
      (∀ p ∈ ps, litSafe p.1 = true ∧ litSafe p.2 = true) →
      parsePairsAux fuel ((joinSep ", " (ps.map renderKV)).data ++ '\x7d' :: rest)
        = some (ps, rest) := by
  intro ps
  induction ps with
  | nil =>
    intro fuel rest hne
    exact absurd rfl hne
  | cons p tl ih =>
    intro fuel rest _ hlen hsafe
    obtain ⟨k, v⟩ := p
    obtain ⟨hk, hv⟩ := hsafe (k, v) (List.mem_cons_self (k, v) tl)
    cases fuel with
    | zero => simp at hlen
    | succ f =>
      cases tl with
      | nil =>
        rw [show joinSep ", " ([(k, v)].map renderKV) = renderKV (k, v) from rfl]
        unfold parsePairsAux
        rw [parsePyKV_safe k v ('\x7d' :: rest) hk hv]
        dsimp only
        rw [skipWs_cons_of_neg '\x7d' rest (by decide)]
        rfl
      | cons q tl2 =>
        have hj : (joinSep ", " (((k, v) :: q :: tl2).map renderKV)).data ++ '\x7d' :: rest
            = (renderKV (k, v)).data ++
              (',' :: ' ' :: ((joinSep ", " ((q :: tl2).map renderKV)).data ++ '\x7d' :: rest)) := by
          rw [show ((k, v) :: q :: tl2).map renderKV
              = renderKV (k, v) :: (q :: tl2).map renderKV from rfl]
          rw [show joinSep ", " (renderKV (k, v) :: (q :: tl2).map renderKV)
              = renderKV (k, v) ++ ", " ++ joinSep ", " ((q :: tl2).map renderKV) by
            cases htl : (q :: tl2).map renderKV with
            | nil => simp at htl
            | cons a l => rw [joinSep]]
          simp [string_data_append]
        unfold parsePairsAux
        rw [hj, parsePyKV_safe k v _ hk hv]
        dsimp only
        rw [skipWs_cons_of_neg ',' _ (by decide)]
        have htail := ih f rest (List.cons_ne_nil q tl2) (by simp at hlen ⊢; omega)
          (fun x hx => hsafe x (List.mem_cons_of_mem (k, v) hx))
        show Option.map (fun p => ((k, v) :: p.1, p.2))
            (parsePairsAux f (' ' :: ((joinSep ", " ((q :: tl2).map renderKV)).data ++ '\x7d' :: rest)))
          = some ((k, v) :: q :: tl2, rest)
        rw [parsePairsAux_ws, htail]
        rfl

theorem seedDictPairs_ne_nil (d : SeedDict) : seedDictPairs d ≠ [] := by
  simp [seedDictPairs]

theorem seedDictPairs_length_le (d : SeedDict) : (seedDictPairs d).length ≤ 9 := by
  cases hn : d.notes <;> simp [seedDictPairs, hn]

theorem joinSep_renderKV_cons_head (p : String × String) (ps : List (String × String)) :
    ∃ tl, (joinSep ", " ((p :: ps).map renderKV)).data = '"' :: tl := by
  obtain ⟨k, v⟩ := p
  cases ps with
  | nil =>
    rw [show joinSep ", " ([(k, v)].map renderKV) = renderKV (k, v) from rfl, renderKV_data]
    exact ⟨_, rfl⟩
  | cons q tl2 =>
    rw [show ((k, v) :: q :: tl2).map renderKV
        = renderKV (k, v) :: renderKV q :: tl2.map renderKV from rfl]
    rw [show joinSep ", " (renderKV (k, v) :: renderKV q :: tl2.map renderKV)
        = renderKV (k, v) ++ ", " ++ joinSep ", " (renderKV q :: tl2.map renderKV) by
      rw [joinSep]]
    rw [string_data_append, string_data_append, renderKV_data, List.cons_append]
    exact ⟨_, rfl⟩

theorem joinSep_pairs_head (d : SeedDict) :
    ∃ tl, (joinSep ", " ((seedDictPairs d).map renderKV)).data = '"' :: tl := by
  have h : seedDictPairs d = ("state", d.state) ::
      (("plate", d.plate) :: ([("make", d.make), ("model", d.model), ("color", d.color),
        ("location", d.location), ("timestamp", d.timestamp),
        ("image_filename", d.image_filename)] ++ (match d.notes with
          | some n => [("notes", n)]
          | none => []))) := rfl
  rw [h]
  exact joinSep_renderKV_cons_head _ _

theorem parsePyDict_safe (d : SeedDict) (fuel : Nat) (rest : List Char)
    (hsafe : ∀ p ∈ seedDictPairs d, litSafe p.1 = true ∧ litSafe p.2 = true)
    (hfuel : 9 ≤ fuel) :
    parsePyDict fuel
      ('\x7b' :: ((joinSep ", " ((seedDictPairs d).map renderKV)).data ++ '\x7d' :: rest))
      = some (seedDictPairs d, rest) := by
  obtain ⟨tl, htl⟩ := joinSep_pairs_head d
  unfold parsePyDict
  rw [skipWs_cons_of_neg '\x7b' _ (by decide)]
  dsimp only
  rw [if_pos (by decide : (('\x7b' == ('\x7b' : Char)) = true))]
  rw [htl, List.cons_append, skipWs_cons_of_neg '"' _ (by decide)]
  dsimp only
  rw [if_neg (by decide : ¬ (('"' == ('\x7d' : Char)) = true))]
  rw [← List.cons_append, ← htl]
  exact parsePairs_safe (seedDictPairs d) fuel rest (seedDictPairs_ne_nil d)
    (le_trans (seedDictPairs_length_le d) hfuel) hsafe

theorem parseEntriesAux_nl (fuel : Nat) (cs : List Char) :
    parseEntriesAux fuel ('\n' :: cs) = parseEntriesAux fuel cs := by
  cases fuel with
  | zero => rfl
  | succ f =>
    unfold parseEntriesAux
    rw [skipWs_cons_of_pos '\n' cs (by decide)]

theorem renderEntry_data (d : SeedDict) (rest : List Char) :
    (renderEntry d).data ++ rest
      = ' ' :: ' ' :: ' ' :: ' ' ::
        '\x7b' :: ((joinSep ", " ((seedDictPairs d).map renderKV)).data ++
          '\x7d' :: ',' :: rest) := by
  unfold renderEntry
  simp [string_data_append]

theorem parseEntries_safe :
    ∀ (ds : List SeedDict) (fuel : Nat),
      (∀ d ∈ ds, ∀ p ∈ seedDictPairs d, litSafe p.1 = true ∧ litSafe p.2 = true) →
      ds.length + 10 ≤ fuel →
      parseEntriesAux fuel ((joinSep "\n" (ds.map renderEntry ++ ["]"])).data)
        = some (ds.map seedDictPairs, []) := by
  intro ds
  induction ds with
  | nil =>
    intro fuel _ hfuel
    cases fuel with
    | zero => omega
    | succ f =>
      rw [show (joinSep "\n" (([] : List SeedDict).map renderEntry ++ ["]"])).data
          = [']'] from rfl]
      unfold parseEntriesAux
      rw [skipWs_cons_of_neg ']' [] (by decide)]
      rfl
  | cons d ds2 ih =>
    intro fuel hsafe hfuel
    cases fuel with
    | zero => omega
    | succ f =>
      have hdec : (joinSep "\n" ((d :: ds2).map renderEntry ++ ["]"])).data
          = (renderEntry d).data ++
            '\n' :: (joinSep "\n" (ds2.map renderEntry ++ ["]"])).data := by
        obtain ⟨a, l, hm⟩ : ∃ a l, ds2.map renderEntry ++ ["]"] = a :: l := by
          cases hx : ds2.map renderEntry ++ ["]"] with
          | nil => simp at hx
          | cons a l => exact ⟨a, l, rfl⟩
        rw [show (d :: ds2).map renderEntry ++ ["]"]
            = renderEntry d :: (ds2.map renderEntry ++ ["]"]) from rfl]
        rw [hm]
        rw [show joinSep "\n" (renderEntry d :: a :: l)
            = renderEntry d ++ "\n" ++ joinSep "\n" (a :: l) by rw [joinSep]]
        simp [string_data_append]
      rw [hdec, renderEntry_data d ('\n' :: (joinSep "\n" (ds2.map renderEntry ++ ["]"])).data)]
      unfold parseEntriesAux
      rw [skipWs_cons_of_pos ' ' _ (by decide), skipWs_cons_of_pos ' ' _ (by decide),
        skipWs_cons_of_pos ' ' _ (by decide), skipWs_cons_of_pos ' ' _ (by decide),
        skipWs_cons_of_neg '\x7b' _ (by decide)]
      dsimp only
      rw [if_neg (by decide : ¬ (('\x7b' == (']' : Char)) = true))]
      rw [parsePyDict_safe d f (',' :: '\n' :: (joinSep "\n" (ds2.map renderEntry ++ ["]"])).data)
        (hsafe d (List.mem_cons_self d ds2)) (by omega)]
      dsimp only
      rw [skipWs_cons_of_neg ',' _ (by decide)]
      dsimp only
      rw [if_pos (by decide : ((',' == (',' : Char)) = true))]
      rw [parseEntriesAux_nl,
        ih f (fun x hx => hsafe x (List.mem_cons_of_mem d hx)) (by simp at hfuel ⊢; omega)]
      rfl

theorem skipHeaderAux_comment :
    ∀ (line : List Char) (rest : List Char), line.all (fun c => c != '\n') = true →
      skipHeaderAux true (line ++ '\n' :: rest) = skipHeaderAux false rest := by
  intro line
  induction line with
  | nil =>
    intro rest _
    rw [List.nil_append]
    conv_lhs => rw [skipHeaderAux]
    rw [if_pos (by decide : (('\n' == ('\n' : Char)) = true))]
  | cons c cs ih =>
    intro rest hall
    rw [List.all_cons, Bool.and_eq_true] at hall
    rw [List.cons_append]
    conv_lhs => rw [skipHeaderAux]
    rw [if_neg (by simp_all)]
    exact ih rest hall.2

theorem skipHeaderAux_hash (cs : List Char) :
    skipHeaderAux false ('#' :: cs) = skipHeaderAux true cs := by
  conv_lhs => rw [skipHeaderAux]
  rw [if_neg (by decide), if_pos (by decide : (('#' == ('#' : Char)) = true))]

theorem skipHeaderAux_nl (cs : List Char) :
    skipHeaderAux false ('\n' :: cs) = skipHeaderAux false cs := by
  conv_lhs => rw [skipHeaderAux]
  rw [if_pos (by decide)]

theorem skipHeaderAux_stop (c : Char) (cs : List Char)
    (h1 : (c == ' ' || c == '\t' || c == '\r' || c == '\n') = false)
    (h2 : (c == '#') = false) :
    skipHeaderAux false (c :: cs) = c :: cs := by
  conv_lhs => rw [skipHeaderAux]
  rw [if_neg (by simp [h1]), if_neg (by simp [h2])]

theorem joinSep_cons_cons (sep x y : String) (l : List String) :
    joinSep sep (x :: y :: l) = x ++ sep ++ joinSep sep (y :: l) := by
  rw [joinSep]

theorem joinSep_length :
    ∀ xs : List String, xs.length ≤ (joinSep "\n" xs).data.length + 1
  | [] => by simp [joinSep]
  | [x] => by simp [joinSep]
  | x :: y :: l => by
    have ih := joinSep_length (y :: l)
    rw [joinSep_cons_cons]
    simp only [string_data_append, List.length_append, List.length_cons]
    simp at ih ⊢
    omega

theorem expectChars_self_append :
    ∀ (xs ys : List Char), expectChars xs (xs ++ ys) = some ys := by
  intro xs
  induction xs with
  | nil =>
    intro ys
    rfl
  | cons e es ih =>
    intro ys
    rw [List.cons_append]
    unfold expectChars
    rw [if_pos (by simp)]
    exact ih ys

theorem export_python_text_data (rs : List Sighting) :
    (export_python_text none rs).data
      = "# Generated export from License Plate Tracker".data ++
        '\n' :: ("# Copy the plates_data list into your seed_data.py file".data ++
          '\n' :: '\n' :: ("plates_data = [".data ++
            '\n' :: (joinSep "\n" ((export_python none rs).map renderEntry ++ ["]"])).data)) := by
  obtain ⟨a, l, hm⟩ : ∃ a l, (export_python none rs).map renderEntry ++ ["]"] = a :: l := by
    cases hx : (export_python none rs).map renderEntry ++ ["]"] with
    | nil => simp at hx
    | cons a l => exact ⟨a, l, rfl⟩
  unfold export_python_text
  rw [show (["# Generated export from License Plate Tracker",
      "# Copy the plates_data list into your seed_data.py file", "",
      "plates_data = ["] ++ (export_python none rs).map renderEntry ++ ["]"])
      = "# Generated export from License Plate Tracker" ::
        "# Copy the plates_data list into your seed_data.py file" :: "" ::
        "plates_data = [" :: ((export_python none rs).map renderEntry ++ ["]"]) from rfl]
  rw [hm, joinSep_cons_cons, joinSep_cons_cons, joinSep_cons_cons, joinSep_cons_cons, ← hm]
  simp [string_data_append]

theorem skipHeaderAux_export (rs : List Sighting) :
    skipHeaderAux false (export_python_text none rs).data
      = "plates_data = [".data ++
        '\n' :: (joinSep "\n" ((export_python none rs).map renderEntry ++ ["]"])).data := by
  rw [export_python_text_data]
  rw [show "# Generated export from License Plate Tracker".data
      = '#' :: " Generated export from License Plate Tracker".data from rfl]
  rw [List.cons_append, skipHeaderAux_hash, skipHeaderAux_comment _ _ (by decide)]
  rw [show "# Copy the plates_data list into your seed_data.py file".data
      = '#' :: " Copy the plates_data list into your seed_data.py file".data from rfl]
  rw [List.cons_append, skipHeaderAux_hash, skipHeaderAux_comment _ _ (by decide)]
  rw [skipHeaderAux_nl]
  rw [show "plates_data = [".data = 'p' :: "lates_data = [".data from rfl]
  rw [List.cons_append, skipHeaderAux_stop 'p' _ (by decide) (by decide)]

theorem export_python_text_length (rs : List Sighting) :
    (export_python none rs).length + 10 ≤ (export_python_text none rs).data.length + 1 := by
  have hj := joinSep_length ((export_python none rs).map renderEntry ++ ["]"])
  rw [export_python_text_data]
  simp only [List.length_append, List.length_cons, List.length_map] at hj ⊢
  have h1 : "# Generated export from License Plate Tracker".data.length = 45 := by decide
  have h2 : "# Copy the plates_data list into your seed_data.py file".data.length = 55 := by decide
  have h3 : "plates_data = [".data.length = 15 := by decide
  omega

/-- Parsing back the emitted text recovers exactly the rendered dicts, when
every interpolated value is literal-safe. -/
theorem parsePlatesData_render (rs : List Sighting)
    (hsafe : ∀ d ∈ export_python none rs,
      ∀ p ∈ seedDictPairs d, litSafe p.1 = true ∧ litSafe p.2 = true) :
    parsePlatesData (export_python_text none rs)
      = some ((export_python none rs).map seedDictPairs) := by
  unfold parsePlatesData
  rw [skipHeaderAux_export]
  rw [show "plates_data = [".data = "plates_data".data ++ " = [".data from rfl]
  rw [List.append_assoc]
  dsimp only
  rw [expectChars_self_append]
  simp only [Option.bind_eq_bind, Option.some_bind]
  rw [show " = [".data ++
      '\n' :: (joinSep "\n" ((export_python none rs).map renderEntry ++ ["]"])).data
      = ' ' :: '=' :: ' ' :: '[' ::
        '\n' :: (joinSep "\n" ((export_python none rs).map renderEntry ++ ["]"])).data from rfl]
  rw [skipWs_cons_of_pos ' ' _ (by decide), skipWs_cons_of_neg '=' _ (by decide),
    expectChar_self]
  simp only [Option.some_bind]
  rw [skipWs_cons_of_pos ' ' _ (by decide), skipWs_cons_of_neg '[' _ (by decide),
    expectChar_self]
  simp only [Option.some_bind]
  rw [parseEntriesAux_nl]
  rw [parseEntries_safe (export_python none rs) ((export_python_text none rs).data.length + 1)
    hsafe (export_python_text_length rs)]
  simp only [Option.some_bind]
  rfl

theorem pairs_safe_of_sighting (s : Sighting) (hsafe : SafeSighting s = true) :
    ∀ p ∈ seedDictPairs (sightingSeedDict true s),
      litSafe p.1 = true ∧ litSafe p.2 = true := by
  unfold SafeSighting at hsafe
  simp only [Bool.and_eq_true] at hsafe
  obtain ⟨⟨⟨⟨⟨⟨⟨h1, h2⟩, h3⟩, h4⟩, h5⟩, h6⟩, h7⟩, h8⟩ := hsafe
  have hts : litSafe (sightingSeedDict true s).timestamp = true := by
    unfold sightingSeedDict
    dsimp only
    cases s.timestamp with
    | none => decide
    | some t => exact litSafe_strftime t
  intro p hp
  simp only [seedDictPairs, sightingSeedDict, if_true, List.mem_append, List.mem_cons,
    List.mem_singleton, List.not_mem_nil, or_false] at hp
  rcases hp with (rfl | rfl | rfl | rfl | rfl | rfl | rfl | rfl) | rfl
  all_goals constructor
  all_goals first
    | (dsimp only; decide)
    | (dsimp only; assumption)

/-- The record the seed loader builds back from the emitted dict of `s`. -/
def loadedOf (i : Nat) (s : Sighting) (t : PyDateTime) : Sighting :=
  { id := i,
    state := s.state,
    license_plate := s.license_plate,
    car_make := s.car_make,
    car_model := s.car_model,
    color := s.color,
    location := some (s.location.getD ""),
    timestamp := some t,
    notes := some (s.notes.getD ""),
    image_filename := none }

theorem seedSighting_render (i : Nat) (s : Sighting) (t : PyDateTime)
    (hts : s.timestamp = some t) (hval : ValidDT t) (husec : t.microsecond = 0) :
    seedSighting i (seedDictPairs (sightingSeedDict true s)) = some (loadedOf i s t) := by
  unfold loadedOf
  have hpairs : seedDictPairs (sightingSeedDict true s)
      = [("state", s.state), ("plate", s.license_plate), ("make", s.car_make),
        ("model", s.car_model), ("color", s.color), ("location", s.location.getD ""),
        ("timestamp", strftimeYmdHMS t), ("image_filename", s.image_filename.getD ""),
        ("notes", s.notes.getD "")] := by
    simp [seedDictPairs, sightingSeedDict, hts]
  rw [hpairs]
  unfold seedSighting
  simp [dictGet, List.find?, strptimeYmdHMS_strftime t hval, pydt_usec_eta t husec]

theorem seedList_roundtrip :
    ∀ (l : List Sighting) (i : Nat),
      (∀ s ∈ l, ∃ t, s.timestamp = some t ∧ ValidDT t ∧ t.microsecond = 0) →
      (∀ s ∈ l, s.notes.isSome = true) →
      ∃ ls, seedList i (l.map (fun s => seedDictPairs (sightingSeedDict true s))) = some ls ∧
        ls.map fullTuple = l.map fullTuple := by
  intro l
  induction l with
  | nil =>
    intro i _ _
    exact ⟨[], rfl, rfl⟩
  | cons s l ih =>
    intro i hts hnotes
    obtain ⟨t, hts1, hval, husec⟩ := hts s (List.mem_cons_self s l)
    have hn := hnotes s (List.mem_cons_self s l)
    obtain ⟨ls, hls, hmap⟩ := ih (i + 1)
      (fun x hx => hts x (List.mem_cons_of_mem s hx))
      (fun x hx => hnotes x (List.mem_cons_of_mem s hx))
    refine ⟨loadedOf i s t :: ls, ?_, ?_⟩
    · rw [List.map_cons]
      unfold seedList
      rw [seedSighting_render i s t hts1 hval husec, hls]
      rfl
    · rw [List.map_cons, List.map_cons, hmap]
      congr 1
      have hnsome : some (s.notes.getD "") = s.notes := by
        cases hcase : s.notes with
        | none => rw [hcase] at hn; exact Bool.noConfusion hn
        | some v => rfl
      simp [fullTuple, keyTuple, loadedOf, hts1, hnsome]

/-- C2 (amended): for record sets whose timestamps are all non-null, valid
and microsecond-free, whose notes are non-null, and whose interpolated text
fields contain no double quote, backslash or line break (the emitted
literals are unescaped, so such characters break or corrupt the emitted
source), parsing the emitted `plates_data` text back as Python source and
running the seed loader on it reproduces the same multiset of
(state, plate, make, model, color) tuples, with timestamps and notes
preserved. -/
theorem export_python_roundtrip_amended :
    ∀ rs : List Sighting,
      (∀ s ∈ rs, ∃ t, s.timestamp = some t ∧ ValidDT t ∧ t.microsecond = 0) →
      (∀ s ∈ rs, s.notes.isSome = true) →
      (∀ s ∈ rs, SafeSighting s = true) →
      ∃ ds ls, parsePlatesData (export_python_text none rs) = some ds ∧
        seed_database ds = some ls ∧
        (↑(ls.map keyTuple) : Multiset (String × String × String × String × String))
          = ↑(rs.map keyTuple) ∧
        (↑(ls.map fullTuple) :
            Multiset ((String × String × String × String × String) ×
              Option PyDateTime × Option String))
          = ↑(rs.map fullTuple) := by
  intro rs hts hn hsafe
  have hflag : export_python none rs = (sortedDesc rs).map (sightingSeedDict true) := by
    unfold export_python
    dsimp only
    have hb : (pyLower ((none : Option String).getD "true") == "true") = true := by decide
    rw [hb]
  have hperm : (sortedDesc rs).Perm rs := List.perm_insertionSort _ rs
  have hsafe2 : ∀ d ∈ export_python none rs,
      ∀ p ∈ seedDictPairs d, litSafe p.1 = true ∧ litSafe p.2 = true := by
    rw [hflag]
    intro d hd
    rw [List.mem_map] at hd
    obtain ⟨s, hs, rfl⟩ := hd
    exact pairs_safe_of_sighting s (hsafe s (hperm.mem_iff.mp hs))
  obtain ⟨ls, hls, hmap⟩ := seedList_roundtrip (sortedDesc rs) 1
    (fun s hs => hts s (hperm.mem_iff.mp hs))
    (fun s hs => hn s (hperm.mem_iff.mp hs))
  refine ⟨(export_python none rs).map seedDictPairs, ls,
    parsePlatesData_render rs hsafe2, ?_, ?_, ?_⟩
  · unfold seed_database
    rw [hflag]
    simp only [List.map_map]
    exact hls
  · have hk : ls.map keyTuple = (sortedDesc rs).map keyTuple := by
      have h1 : (ls.map fullTuple).map Prod.fst
          = ((sortedDesc rs).map fullTuple).map Prod.fst := by rw [hmap]
      rw [List.map_map, List.map_map] at h1
      exact h1
    rw [hk]
    exact Multiset.coe_eq_coe.mpr (hperm.map keyTuple)
  · rw [hmap]
    exact Multiset.coe_eq_coe.mpr (hperm.map fullTuple)

def c2Null : Sighting :=
  { id := 1, state := "CA", license_plate := "ABC1234", car_make := "Honda", car_model := "Civic",
    color := "Blue", location := none, timestamp := none, notes := some "x",
    image_filename := none }

def c2Quote : Sighting :=
  { id := 2, state := "NY", license_plate := "XYZ9876", car_make := "Toyota", car_model := "Camry",
    color := "Silver", location := none, timestamp := some ⟨2025, 10, 9, 22, 30, 0, 0⟩,
    notes := some "said \"hi\"", image_filename := none }

set_option maxRecDepth 8000 in
/-- C2 counterexample: the round-trip claim fails for some record sets — a
record with a NULL timestamp exports as an empty string on which the seed
loader's `strptime` raises, aborting the whole seeding run; and a record
whose notes contain a double quote is interpolated unescaped into the
emitted source, which no longer parses (`SyntaxError`), so nothing is
reproduced in either case. -/
theorem export_python_roundtrip_counterexample :
    (parsePlatesData (export_python_text none [c2Null])).bind seed_database = none ∧
    parsePlatesData (export_python_text none [c2Quote]) = none := by
  constructor <;> decide

def c2Good : Sighting :=
  { id := 3, state := "CA", license_plate := "ABC1234", car_make := "Honda", car_model := "Civic",
    color := "Blue", location := some "Downtown LA",
    timestamp := some ⟨2025, 10, 10, 9, 15, 0, 0⟩,
    notes := some "Seen near coffee shop", image_filename := none }

/-- Witness for C2 (amended): one fully safe record — valid timestamp,
non-null notes, no quote/backslash/newline in any field — survives the
emit-then-reparse-then-seed round trip. -/
theorem export_python_roundtrip_amended_witness :
    ∃ ds ls, parsePlatesData (export_python_text none [c2Good]) = some ds ∧
      seed_database ds = some ls ∧
      (↑(ls.map keyTuple) : Multiset (String × String × String × String × String))
        = ↑([c2Good].map keyTuple) ∧
      (↑(ls.map fullTuple) :
          Multiset ((String × String × String × String × String) ×
            Option PyDateTime × Option String))
        = ↑([c2Good].map fullTuple) :=
  export_python_roundtrip_amended [c2Good]
    (fun s hs => by
      rw [List.mem_singleton] at hs
      subst hs
      exact ⟨⟨2025, 10, 10, 9, 15, 0, 0⟩, rfl, by decide, rfl⟩)
    (by decide)
    (by decide)
